import Mathlib

/-!
Shallow embedding of the opensomeip SOME/IP protocol core: the message
codec (src/someip/message.cpp), the TP segmenter and reassembler
(src/tp/tp_segmenter.cpp, src/tp/tp_reassembler.cpp), the SD codec
(src/sd/sd_message.cpp) and the payload deserializer
(src/serialization/serializer.cpp).  Bytes are modelled as `Nat` values
below 256 and byte sequences as `List Nat`; machine-integer truncation
is made explicit with `% 2 ^ w` at the points where the C++ stores into
a fixed-width integer or performs a cast.
-/

namespace Someip

/-- Big-endian byte list of a 32-bit value, most significant byte first.
Models `htonl` followed by a byte-wise `insert` in `Message::serialize`. -/
def be32 (v : Nat) : List Nat :=
  [v / 2 ^ 24 % 256, v / 2 ^ 16 % 256, v / 2 ^ 8 % 256, v % 256]

/-- Big-endian 32-bit read at index `i`.  Models `ntohl` of the four bytes
`data[i..i+4]` in `Message::deserialize`. -/
def readBe32 (data : List Nat) (i : Nat) : Nat :=
  data.getD i 0 * 2 ^ 24 + data.getD (i + 1) 0 * 2 ^ 16 +
    data.getD (i + 2) 0 * 2 ^ 8 + data.getD (i + 3) 0

/-- SOME/IP message, from `include/someip/message.h`.  The C++ nests
`service_id`/`method_id` inside `MessageId` and `client_id`/`session_id`
inside `RequestId`; the fields are flattened here, matching the accessor
names of the class.  The diagnostic timestamp is not modelled. -/
structure Message where
  service_id : Nat
  method_id : Nat
  length : Nat
  client_id : Nat
  session_id : Nat
  protocol_version : Nat
  interface_version : Nat
  message_type : Nat
  return_code : Nat
  payload : List Nat
deriving Repr, DecidableEq

/-- Well-formedness of the machine-integer fields: each fits its C++
storage width (`uint16_t`, `uint32_t`, `uint8_t`).  Every reachable C++
`Message` object satisfies this by its field types. -/
def Message.wf (m : Message) : Prop :=
  m.service_id < 2 ^ 16 ∧ m.method_id < 2 ^ 16 ∧ m.length < 2 ^ 32 ∧
    m.client_id < 2 ^ 16 ∧ m.session_id < 2 ^ 16 ∧
    m.protocol_version < 2 ^ 8 ∧ m.interface_version < 2 ^ 8 ∧
    m.message_type < 2 ^ 8 ∧ m.return_code < 2 ^ 8

instance (m : Message) : Decidable m.wf := by
  unfold Message.wf
  infer_instance

/-- Message serialization, from `Message::serialize` in
src/someip/message.cpp lines 109-135: big-endian `message_id`
(`service_id << 16 | method_id`), the stored `length_` field as written
(the function does not recompute it), big-endian `request_id`
(`client_id << 16 | session_id`), the four single-byte fields, then the
payload bytes unchanged. -/
def Message.serialize (m : Message) : List Nat :=
  be32 ((m.service_id % 2 ^ 16) * 2 ^ 16 + m.method_id % 2 ^ 16) ++
    be32 (m.length % 2 ^ 32) ++
    be32 ((m.client_id % 2 ^ 16) * 2 ^ 16 + m.session_id % 2 ^ 16) ++
    [m.protocol_version % 2 ^ 8, m.interface_version % 2 ^ 8,
      m.message_type % 2 ^ 8, m.return_code % 2 ^ 8] ++
    m.payload

/-- Valid `MessageType` codes, the `switch` in `Message::has_valid_header`
(src/someip/message.cpp lines 232-247). -/
def isValidMessageType (t : Nat) : Bool :=
  t == 0x00 || t == 0x01 || t == 0x02 || t == 0x40 || t == 0x80 ||
    t == 0x81 || t == 0xC0 || t == 0xC1 || t == 0x20 || t == 0x21 || t == 0x22

/-- Valid `ReturnCode` codes, the `switch` in `Message::has_valid_header`
(src/someip/message.cpp lines 250-270). -/
def isValidReturnCode (c : Nat) : Bool :=
  c == 0x00 || c == 0x01 || c == 0x02 || c == 0x03 || c == 0x04 ||
    c == 0x05 || c == 0x06 || c == 0x07 || c == 0x08 || c == 0x09 ||
    c == 0x0A || c == 0x0B || c == 0x0C || c == 0x0D || c == 0x0E || c == 0x0F

/-- Header validation, from `Message::has_valid_header`
(src/someip/message.cpp lines 211-273): protocol and interface version 1,
length consistency computed in `uint32_t` arithmetic
(`8 + length_ == HEADER_SIZE + payload_.size()`), and enum membership of
`message_type` and `return_code`. -/
def Message.has_valid_header (m : Message) : Bool :=
  m.protocol_version == 1 && m.interface_version == 1 &&
    ((8 + m.length % 2 ^ 32) % 2 ^ 32 == (16 + m.payload.length) % 2 ^ 32) &&
    isValidMessageType m.message_type && isValidReturnCode m.return_code

/-- Payload validation, from `Message::has_valid_payload`
(src/someip/message.cpp lines 275-278): the payload size is at most
`MAX_TCP_PAYLOAD_SIZE = 65535` (include/someip/message.h line 153). -/
def Message.has_valid_payload (m : Message) : Bool :=
  decide (m.payload.length ≤ 65535)

/-- Message validation, from `Message::is_valid`
(src/someip/message.cpp lines 207-209). -/
def Message.is_valid (m : Message) : Bool :=
  m.has_valid_header && m.has_valid_payload

/-- Message deserialization, from `Message::deserialize`
(src/someip/message.cpp lines 137-205).  Returns `some` exactly when the
C++ function returns `true`: the input holds at least the 16-byte header,
the parsed `length` is at least 8, the remaining byte count equals
`length - 8`, and the populated message passes `is_valid`. -/
def Message.deserialize (data : List Nat) : Option Message :=
  if data.length < 16 then none
  else
    let msgId := readBe32 data 0
    let len := readBe32 data 4
    let reqId := readBe32 data 8
    let m : Message :=
      { service_id := msgId / 2 ^ 16 % 2 ^ 16
        method_id := msgId % 2 ^ 16
        length := len
        client_id := reqId / 2 ^ 16 % 2 ^ 16
        session_id := reqId % 2 ^ 16
        protocol_version := data.getD 12 0
        interface_version := data.getD 13 0
        message_type := data.getD 14 0
        return_code := data.getD 15 0
        payload := data.drop 16 }
    if len < 8 then none
    else if data.length - 16 ≠ len - 8 then none
    else if m.is_valid then some m else none

/-- Hello-world message of spec scenario S1, with a consistent length
field of `8 + 5 = 13`. -/
def msgS1 : Message :=
  Message.mk 0x1000 0x0001 13 0x1234 0x5678 1 1 0 0
    [0x48, 0x65, 0x6C, 0x6C, 0x6F]

/-- Message with an empty payload whose stored length field was overridden
to 99 via `set_length` (a plain setter, include/someip/message.h line 74). -/
def msgLen99 : Message :=
  Message.mk 0 0 99 0 0 1 1 0 0 []

/-- Message with a 65528-byte payload, a consistent length field of
`8 + 65528 = 65536`, and otherwise default valid header fields. -/
def msg65528 : Message :=
  Message.mk 0 0 65536 0 0 1 1 0 0 (List.replicate 65528 0)

/-- Deserializer over a byte buffer with a read cursor, from
src/serialization/serializer.cpp lines 160-166. -/
structure Deserializer where
  buffer : List Nat
  position : Nat
deriving Repr, DecidableEq

namespace Deserializer

/-- Bounds-checked big-endian 16-bit read of `Deserializer::read_be_uint16`
(src/serialization/serializer.cpp lines 299-308): on a short buffer it
returns no value and does not move the cursor. -/
def read_be_uint16 (d : Deserializer) : Option Nat × Deserializer :=
  if d.position + 2 > d.buffer.length then (none, d)
  else
    (some (d.buffer.getD d.position 0 * 2 ^ 8 + d.buffer.getD (d.position + 1) 0),
      { d with position := d.position + 2 })

/-- Big-endian 32-bit read of `Deserializer::read_be_uint32` (lines
310-319). -/
def read_be_uint32 (d : Deserializer) : Option Nat × Deserializer :=
  if d.position + 4 > d.buffer.length then (none, d)
  else
    (some (d.buffer.getD d.position 0 * 2 ^ 24 + d.buffer.getD (d.position + 1) 0 * 2 ^ 16 +
        d.buffer.getD (d.position + 2) 0 * 2 ^ 8 + d.buffer.getD (d.position + 3) 0),
      { d with position := d.position + 4 })

/-- Big-endian 64-bit read of `Deserializer::read_be_uint64` (lines
321-339), the explicit byte shuffle. -/
def read_be_uint64 (d : Deserializer) : Option Nat × Deserializer :=
  if d.position + 8 > d.buffer.length then (none, d)
  else
    (some (d.buffer.getD d.position 0 * 2 ^ 56 + d.buffer.getD (d.position + 1) 0 * 2 ^ 48 +
        d.buffer.getD (d.position + 2) 0 * 2 ^ 40 + d.buffer.getD (d.position + 3) 0 * 2 ^ 32 +
        d.buffer.getD (d.position + 4) 0 * 2 ^ 24 + d.buffer.getD (d.position + 5) 0 * 2 ^ 16 +
        d.buffer.getD (d.position + 6) 0 * 2 ^ 8 + d.buffer.getD (d.position + 7) 0),
      { d with position := d.position + 8 })

/-- `Deserializer::deserialize_bool` (lines 172-178). -/
def deserialize_bool (d : Deserializer) : Option Bool × Deserializer :=
  if d.position + 1 > d.buffer.length then (none, d)
  else (some (d.buffer.getD d.position 0 != 0), { d with position := d.position + 1 })

/-- `Deserializer::deserialize_uint8` (lines 180-186). -/
def deserialize_uint8 (d : Deserializer) : Option Nat × Deserializer :=
  if d.position + 1 > d.buffer.length then (none, d)
  else (some (d.buffer.getD d.position 0), { d with position := d.position + 1 })

/-- `Deserializer::deserialize_uint16` (lines 188-194), mapping the
read failure to the `MALFORMED_MESSAGE` error. -/
def deserialize_uint16 (d : Deserializer) : Option Nat × Deserializer :=
  read_be_uint16 d

/-- `Deserializer::deserialize_uint32` (lines 196-202). -/
def deserialize_uint32 (d : Deserializer) : Option Nat × Deserializer :=
  read_be_uint32 d

/-- `Deserializer::deserialize_uint64` (lines 204-210). -/
def deserialize_uint64 (d : Deserializer) : Option Nat × Deserializer :=
  read_be_uint64 d

/-- `Deserializer::skip` (lines 290-292), saturating at the end of the
buffer. -/
def skip (d : Deserializer) (bytes : Nat) : Deserializer :=
  { d with position := min (d.position + bytes) d.buffer.length }

/-- `Deserializer::align_to` (lines 294-297): advances the cursor to the
next multiple of `alignment`, saturating. -/
def align_to (d : Deserializer) (alignment : Nat) : Deserializer :=
  d.skip ((alignment - d.position % alignment) % alignment)

/-- `Deserializer::deserialize_string` (src/serialization/serializer.cpp
lines 260-280): reads the 4-byte length prefix (moving the cursor by 4 on
success), then fails if the declared body crosses the end of the buffer
-- with the cursor left after the prefix -- otherwise extracts the bytes
and skips the 4-byte alignment padding. -/
def deserialize_string (d : Deserializer) : Option (List Nat) × Deserializer :=
  match d.deserialize_uint32 with
  | (none, d1) => (none, d1)
  | (some len, d1) =>
    if d1.position + len > d1.buffer.length then (none, d1)
    else
      let s := (d1.buffer.drop d1.position).take len
      let d2 := { d1 with position := d1.position + len }
      (some s, d2.align_to 4)

end Deserializer

/-- Service-discovery service entry, from `ServiceEntry` in
include/sd/sd_message.h: the base-class fields `type`, `index1`,
`index2`, `ttl` plus `service_id`, `instance_id`, `major_version` and
`minor_version`. -/
structure ServiceEntry where
  type : Nat
  index1 : Nat
  index2 : Nat
  service_id : Nat
  instance_id : Nat
  major_version : Nat
  minor_version : Nat
  ttl : Nat
deriving Repr, DecidableEq

/-- Service-discovery event-group entry, from `EventGroupEntry` in
include/sd/sd_message.h. -/
structure EventGroupEntry where
  type : Nat
  index1 : Nat
  index2 : Nat
  service_id : Nat
  instance_id : Nat
  major_version : Nat
  eventgroup_id : Nat
  ttl : Nat
deriving Repr, DecidableEq

/-- Base `SdEntry::serialize` (src/sd/sd_message.cpp lines 22-59): pushes
type, index1, index2, two zeroed option-count bytes, two zeroed service-id
bytes, two zeroed instance-id bytes, a zeroed major-version byte, and the
ttl as four big-endian bytes -- 14 bytes in total. -/
def sdEntrySerializeBase (type index1 index2 ttl : Nat) : List Nat :=
  [type % 256, index1 % 256, index2 % 256, 0, 0, 0, 0, 0, 0, 0,
    ttl / 2 ^ 24 % 256, ttl / 2 ^ 16 % 256, ttl / 2 ^ 8 % 256, ttl % 256]

/-- `ServiceEntry::serialize` (src/sd/sd_message.cpp lines 76-91): the
base bytes with indices 4..8 overwritten by service id, instance id and
major version.  Nothing is appended, so the result stays at 14 bytes and
`minor_version` is never written. -/
def ServiceEntry.serialize (e : ServiceEntry) : List Nat :=
  (((((sdEntrySerializeBase e.type e.index1 e.index2 e.ttl).set 4
    (e.service_id / 2 ^ 8 % 256)).set 5 (e.service_id % 256)).set 6
    (e.instance_id / 2 ^ 8 % 256)).set 7 (e.instance_id % 256)).set 8
    (e.major_version % 256)

/-- `EventGroupEntry::serialize` (src/sd/sd_message.cpp lines 113-132):
the same overrides as the service entry, then two pushed event-group id
bytes, for 16 bytes in total. -/
def EventGroupEntry.serialize (e : EventGroupEntry) : List Nat :=
  (((((sdEntrySerializeBase e.type e.index1 e.index2 e.ttl).set 4
    (e.service_id / 2 ^ 8 % 256)).set 5 (e.service_id % 256)).set 6
    (e.instance_id / 2 ^ 8 % 256)).set 7 (e.instance_id % 256)).set 8
    (e.major_version % 256) ++
    [e.eventgroup_id / 2 ^ 8 % 256, e.eventgroup_id % 256]

/-- Parsed SD entry as produced by `SdMessage::deserialize`: a service
entry or an event-group entry with the fields each variant reads. -/
inductive SdEntryParsed where
  | service (type index1 index2 service_id instance_id major_version ttl : Nat)
  | eventgroup
      (type index1 index2 service_id instance_id major_version ttl eventgroup_id : Nat)
deriving Repr, DecidableEq

/-- `SdEntry::deserialize` followed by `ServiceEntry::deserialize`
(src/sd/sd_message.cpp lines 61-73 and 93-110): requires 16 readable
bytes at `offset` (base check) and 9 more after the 5 base-consumed ones,
reads the fields, and advances the cursor by 14 bytes in total. -/
def serviceEntryDeserialize (data : List Nat) (offset : Nat) :
    Option (SdEntryParsed × Nat) :=
  if offset + 16 > data.length then none
  else if offset + 5 + 9 > data.length then none
  else
    some (.service (data.getD offset 0) (data.getD (offset + 1) 0)
        (data.getD (offset + 2) 0)
        (data.getD (offset + 5) 0 * 2 ^ 8 + data.getD (offset + 6) 0)
        (data.getD (offset + 7) 0 * 2 ^ 8 + data.getD (offset + 8) 0)
        (data.getD (offset + 9) 0)
        (data.getD (offset + 10) 0 * 2 ^ 24 + data.getD (offset + 11) 0 * 2 ^ 16 +
          data.getD (offset + 12) 0 * 2 ^ 8 + data.getD (offset + 13) 0),
      offset + 14)

/-- `SdEntry::deserialize` followed by `EventGroupEntry::deserialize`
(src/sd/sd_message.cpp lines 61-73 and 134-152): requires 16 readable
bytes at `offset` plus 11 after the 5 base-consumed ones, reads the
fields including the event-group id, and advances the cursor by 16. -/
def eventGroupEntryDeserialize (data : List Nat) (offset : Nat) :
    Option (SdEntryParsed × Nat) :=
  if offset + 16 > data.length then none
  else if offset + 5 + 11 > data.length then none
  else
    some (.eventgroup (data.getD offset 0) (data.getD (offset + 1) 0)
        (data.getD (offset + 2) 0)
        (data.getD (offset + 5) 0 * 2 ^ 8 + data.getD (offset + 6) 0)
        (data.getD (offset + 7) 0 * 2 ^ 8 + data.getD (offset + 8) 0)
        (data.getD (offset + 9) 0)
        (data.getD (offset + 10) 0 * 2 ^ 24 + data.getD (offset + 11) 0 * 2 ^ 16 +
          data.getD (offset + 12) 0 * 2 ^ 8 + data.getD (offset + 13) 0)
        (data.getD (offset + 14) 0 * 2 ^ 8 + data.getD (offset + 15) 0),
      offset + 16)

/-- Entry-parsing loop of `SdMessage::deserialize` (src/sd/sd_message.cpp
lines 348-395), with an explicit fuel that counts loop iterations.  The
cursor starts at 8 and `eol` is the remaining entries-and-options length;
types 0x00/0x01 dispatch to the service entry, 0x06/0x07 to the
event-group entry; any other type advances the cursor by exactly one byte
and decrements the remaining length; after a parsed entry the remaining
length is recomputed from the cursor. -/
def sdParseLoop (data : List Nat) (length : Nat) :
    Nat → Nat → Nat → List SdEntryParsed → Option (List SdEntryParsed)
  | 0, _, _, _ => none
  | fuel + 1, offset, eol, acc =>
    if eol = 0 then some acc
    else if offset + 1 > data.length then none
    else
      let t := data.getD offset 0
      if t = 0 ∨ t = 1 then
        match serviceEntryDeserialize data offset with
        | none => none
        | some (e, offset1) =>
          let eol1 := if 8 ≤ offset1 then
            (if offset1 - 8 ≤ length then length - (offset1 - 8) else 0) else 0
          sdParseLoop data length fuel offset1 eol1 (acc ++ [e])
      else if t = 6 ∨ t = 7 then
        match eventGroupEntryDeserialize data offset with
        | none => none
        | some (e, offset1) =>
          let eol1 := if 8 ≤ offset1 then
            (if offset1 - 8 ≤ length then length - (offset1 - 8) else 0) else 0
          sdParseLoop data length fuel offset1 eol1 (acc ++ [e])
      else
        sdParseLoop data length fuel (offset + 1) (eol - 1) acc

/-- `SdMessage::deserialize` (src/sd/sd_message.cpp lines 325-398):
reads flags, the 3-byte reserved field and the 4-byte combined length,
checks the declared length against the buffer, then runs the entry loop.
Returns the flags, the reserved value and the parsed entries.  The fuel
`length + 1` covers every terminating C++ run because each iteration
strictly decreases the remaining length. -/
def SdMessage.deserialize (data : List Nat) :
    Option (Nat × Nat × List SdEntryParsed) :=
  if data.length < 8 then none
  else
    let flags := data.getD 0 0
    let reserved := data.getD 1 0 * 2 ^ 16 + data.getD 2 0 * 2 ^ 8 + data.getD 3 0
    let length := readBe32 data 4
    if 8 + length > data.length then none
    else
      (sdParseLoop data length (length + 1) 8 length []).map
        (fun es => (flags, reserved, es))

/-- Entry-parsing loop that follows the words of the spec for unknown
entry types: an entry whose type code is not 0x00, 0x01, 0x06 or 0x07 is
skipped by advancing the cursor exactly 16 bytes, preserving the 16-byte
framing of the entries array.  Identical to `sdParseLoop` otherwise. -/
def sdParseLoopSkip16 (data : List Nat) (length : Nat) :
    Nat → Nat → Nat → List SdEntryParsed → Option (List SdEntryParsed)
  | 0, _, _, _ => none
  | fuel + 1, offset, eol, acc =>
    if eol = 0 then some acc
    else if offset + 1 > data.length then none
    else
      let t := data.getD offset 0
      if t = 0 ∨ t = 1 then
        match serviceEntryDeserialize data offset with
        | none => none
        | some (e, offset1) =>
          let eol1 := if 8 ≤ offset1 then
            (if offset1 - 8 ≤ length then length - (offset1 - 8) else 0) else 0
          sdParseLoopSkip16 data length fuel offset1 eol1 (acc ++ [e])
      else if t = 6 ∨ t = 7 then
        match eventGroupEntryDeserialize data offset with
        | none => none
        | some (e, offset1) =>
          let eol1 := if 8 ≤ offset1 then
            (if offset1 - 8 ≤ length then length - (offset1 - 8) else 0) else 0
          sdParseLoopSkip16 data length fuel offset1 eol1 (acc ++ [e])
      else
        sdParseLoopSkip16 data length fuel (offset + 16) (eol - 16) acc

/-- Variant of `SdMessage::deserialize` that follows the spec's words for
unknown entry types (skip exactly 16 bytes). -/
def SdMessage.deserializeSkip16 (data : List Nat) :
    Option (Nat × Nat × List SdEntryParsed) :=
  if data.length < 8 then none
  else
    let flags := data.getD 0 0
    let reserved := data.getD 1 0 * 2 ^ 16 + data.getD 2 0 * 2 ^ 8 + data.getD 3 0
    let length := readBe32 data 4
    if 8 + length > data.length then none
    else
      (sdParseLoopSkip16 data length (length + 1) 8 length []).map
        (fun es => (flags, reserved, es))

/-- SD payload whose entries array starts with an unknown type byte 0x02
followed by a well-formed FIND_SERVICE entry and two trailing 0xAA bytes:
header flags 0, reserved 0, combined length 17, then 17 entry bytes. -/
def sdC8data : List Nat :=
  [0, 0, 0, 0, 0, 0, 0, 17,
    2,
    0, 5, 6, 0, 0, 0x12, 0x34, 0xFF, 0xFE, 1, 0, 0, 0, 3,
    0xAA, 0xAA]

/-- TP message types, from the enum in include/tp/tp_types.h lines 44-49. -/
inductive TpMessageType where
  | FIRST_SEGMENT
  | CONSECUTIVE_SEGMENT
  | LAST_SEGMENT
  | SINGLE_MESSAGE
deriving Repr, DecidableEq

/-- TP result codes returned by the segmenter, from include/tp/tp_types.h
lines 29-39 (only the values the segmenter produces are modelled). -/
inductive TpResult where
  | SUCCESS
  | MESSAGE_TOO_LARGE
deriving Repr, DecidableEq

/-- TP configuration, from `TpConfig` in include/tp/tp_types.h lines
54-62 (the retry and timeout knobs play no role in the claims). -/
structure TpConfig where
  max_segment_size : Nat
  max_message_size : Nat
  max_concurrent_transfers : Nat
deriving Repr, DecidableEq

/-- Default `TpConfig` values: 1400-byte segments, 1 MB messages, 10
concurrent transfers. -/
def defaultTpConfig : TpConfig :=
  { max_segment_size := 1400, max_message_size := 1000000,
    max_concurrent_transfers := 10 }

/-- TP segment, flattening `TpSegmentHeader` plus the payload from
include/tp/tp_types.h lines 67-87 (timestamp and retransmit counter are
diagnostics and are not modelled). -/
structure TpSegment where
  message_length : Nat
  segment_offset : Nat
  segment_length : Nat
  sequence_number : Nat
  message_type : TpMessageType
  payload : List Nat
deriving Repr, DecidableEq

/-- Loop of `TpSegmenter::create_multi_segments` (src/tp/tp_segmenter.cpp
lines 89-115).  The C++ `payload_offset` is a `uint16_t`, so the updated
offset is reduced modulo `2 ^ 16` and the loop need not terminate when
`total_length` exceeds 65535; the fuel counts iterations and a run that
does not finish within it yields `none`. -/
def multiRest (cfg : TpConfig) (P : List Nat) (total_length seq : Nat) :
    Nat → Nat → Option (List TpSegment)
  | 0, offset => if offset < total_length then none else some []
  | fuel + 1, offset =>
    if offset < total_length then
      let remaining := total_length - offset
      let mtype := if remaining ≤ cfg.max_segment_size then
        TpMessageType.LAST_SEGMENT else TpMessageType.CONSECUTIVE_SEGMENT
      let psize := (min cfg.max_segment_size remaining) % 2 ^ 16
      let seg : TpSegment :=
        { message_length := total_length
          segment_offset := offset
          segment_length := psize
          sequence_number := seq % 2 ^ 8
          message_type := mtype
          payload := (P.drop offset).take psize }
      match multiRest cfg P total_length seq fuel ((offset + psize) % 2 ^ 16) with
      | some rest => some (seg :: rest)
      | none => none
    else some []

/-- Size `first_payload_size` of the payload part of the FIRST segment
(src/tp/tp_segmenter.cpp line 77): `min(max_segment_size - 16,
total_length)`, where the subtraction is `uint32_t` arithmetic and wraps
when `max_segment_size` is below 16. -/
def firstSizeOf (cfg : TpConfig) (m : Message) : Nat :=
  min ((cfg.max_segment_size + (2 ^ 32 - 16)) % 2 ^ 32) (m.payload.length % 2 ^ 32)

/-- FIRST segment built by `create_multi_segments` (src/tp/tp_segmenter.cpp
lines 66-86): 16 header bytes from `message.serialize()` truncated by
`header.resize(16)`, then the first `firstSizeOf` payload bytes;
`segment_offset` 0, `segment_length` the combined byte count as
`uint16_t`. -/
def firstSegmentOf (cfg : TpConfig) (m : Message) (seq : Nat) : TpSegment :=
  { message_length := m.payload.length % 2 ^ 32
    segment_offset := 0
    segment_length := (16 + firstSizeOf cfg m) % 2 ^ 16
    sequence_number := seq % 2 ^ 8
    message_type := TpMessageType.FIRST_SEGMENT
    payload := m.serialize.take 16 ++ m.payload.take (firstSizeOf cfg m) }

/-- `TpSegmenter::create_multi_segments` (src/tp/tp_segmenter.cpp lines
57-120): the FIRST segment followed by the loop's segments.  The sequence
counter value is passed in by the caller; all produced segments carry
`seq % 256`. -/
def create_multi_segments (cfg : TpConfig) (m : Message) (seq : Nat) :
    Option (List TpSegment) :=
  (multiRest cfg m.payload (m.payload.length % 2 ^ 32) seq
      (m.payload.length % 2 ^ 32 + 1) (firstSizeOf cfg m % 2 ^ 16)).map
    (fun rest => firstSegmentOf cfg m seq :: rest)

/-- `TpSegmenter::segment_message` (src/tp/tp_segmenter.cpp lines 28-55):
fails with `MESSAGE_TOO_LARGE` when the payload exceeds
`max_message_size`; produces one SINGLE_MESSAGE segment carrying the full
serialized message when the PAYLOAD alone fits in `max_segment_size`
(the 16-byte header is not counted in the comparison); otherwise
multi-segments.  `seq` is the current value of the segmenter's
`next_sequence_number_` counter. -/
def segment_message (cfg : TpConfig) (m : Message) (seq : Nat) :
    Option (TpResult × List TpSegment) :=
  if m.payload.length > cfg.max_message_size then
    some (TpResult.MESSAGE_TOO_LARGE, [])
  else if m.payload.length ≤ cfg.max_segment_size then
    let message_data := m.serialize
    some (TpResult.SUCCESS,
      [{ message_length := m.payload.length % 2 ^ 32
         segment_offset := 0
         segment_length := message_data.length % 2 ^ 16
         sequence_number := seq % 2 ^ 8
         message_type := TpMessageType.SINGLE_MESSAGE
         payload := message_data }])
  else
    (create_multi_segments cfg m seq).map (fun segs => (TpResult.SUCCESS, segs))

/-- Config with 100-byte segments used by the C6 counterexample. -/
def cfg100 : TpConfig :=
  { max_segment_size := 100, max_message_size := 1000000,
    max_concurrent_transfers := 10 }

/-- Message with a 100-byte payload and a consistent length field. -/
def msgPay100 : Message :=
  Message.mk 0x1234 0x5678 108 0xABCD 0x0001 1 1 0 0 (List.replicate 100 0xAA)

/-- Reference list of the segments after the FIRST one, following the
spec's words (section 4.4): zero or more CONSECUTIVE_SEGMENTs each
carrying exactly `max_segment_size` payload bytes at the offset of the
bytes already sent, then one final LAST_SEGMENT carrying the remaining
`N - offset` bytes (between 1 and `max_segment_size`) at offset
`N - |last payload|`; all segments share `message_length = N` and the
sequence number.  `k` bounds the recursion depth and any sufficiently
large value yields the same list. -/
def specRestFrom (cfg : TpConfig) (P : List Nat) (N seq : Nat) :
    Nat → Nat → List TpSegment
  | 0, _ => []
  | k + 1, offset =>
    if N - offset ≤ cfg.max_segment_size then
      [{ message_length := N
         segment_offset := offset
         segment_length := N - offset
         sequence_number := seq % 2 ^ 8
         message_type := TpMessageType.LAST_SEGMENT
         payload := (P.drop offset).take (N - offset) }]
    else
      { message_length := N
        segment_offset := offset
        segment_length := cfg.max_segment_size
        sequence_number := seq % 2 ^ 8
        message_type := TpMessageType.CONSECUTIVE_SEGMENT
        payload := (P.drop offset).take cfg.max_segment_size } ::
        specRestFrom cfg P N seq k (offset + cfg.max_segment_size)

/-- Config with 10-byte segments used by the C7 counterexample. -/
def cfg10 : TpConfig :=
  { max_segment_size := 10, max_message_size := 1000000,
    max_concurrent_transfers := 10 }

/-- Message with an 11-byte payload and a consistent length field. -/
def msgPay11 : Message :=
  Message.mk 0 0 19 0 0 1 1 0 0 (List.replicate 11 0x55)

/-- Config with 20-byte segments used by the C7 witness. -/
def cfg20 : TpConfig :=
  { max_segment_size := 20, max_message_size := 1000000,
    max_concurrent_transfers := 10 }

/-- Message with a 30-byte payload and a consistent length field, a
scaled-down version of spec scenario S3. -/
def msgPay30 : Message :=
  Message.mk 0x1234 0x5678 38 0xABCD 1 1 1 0 0 (List.replicate 30 0x55)

/-- Byte-wise copy of `src` into `dst` starting at `off`, clipped at the
end of `dst`: the translation of
`std::copy(src.begin(), src.end(), dst.begin() + off)` in
`TpReassembler::add_segment_to_buffer` (the C++ call is always in bounds
there because the offset was checked first). -/
def overwriteFrom : List Nat → Nat → List Nat → List Nat
  | [], _, _ => []
  | d :: rest, 0, [] => d :: rest
  | _ :: rest, 0, s :: srest => s :: overwriteFrom rest 0 srest
  | d :: rest, off + 1, src => d :: overwriteFrom rest off src

/-- Mark the coverage bits `off..off+len`, clipped at the end of the
list: the loop of `TpReassemblyBuffer::mark_segment_received`
(src/tp/tp_reassembler.cpp lines 231-236) with its `bit_index < size`
guard. -/
def setRange : List Bool → Nat → Nat → List Bool
  | [], _, _ => []
  | v :: rest, 0, 0 => v :: rest
  | _ :: rest, 0, len + 1 => true :: setRange rest 0 len
  | v :: rest, off + 1, len => v :: setRange rest off len

/-- Reassembly buffer, from `TpReassemblyBuffer` in include/tp/tp_types.h
lines 92-111.  `received_data` is zero-filled to the total length by the
constructor; `received_segments` starts empty and is resized on the first
mark.  The start time is not modelled (timeouts are outside the claims). -/
structure TpReassemblyBuffer where
  message_id : Nat
  total_length : Nat
  received_data : List Nat
  received_segments : List Bool
  last_sequence_number : Nat
  complete : Bool
deriving Repr, DecidableEq

/-- Buffer constructor `TpReassemblyBuffer(msg_id, length)`
(include/tp/tp_types.h lines 101-105). -/
def mkBuffer (msg_id length : Nat) : TpReassemblyBuffer :=
  { message_id := msg_id
    total_length := length
    received_data := List.replicate length 0
    received_segments := []
    last_sequence_number := 0
    complete := false }

/-- `TpReassemblyBuffer::is_segment_received` (src/tp/tp_reassembler.cpp
lines 215-223): true iff every bit of the range exists and is set. -/
def TpReassemblyBuffer.is_segment_received (b : TpReassemblyBuffer)
    (offset length : Nat) : Bool :=
  (List.range length).all fun i =>
    decide (offset + i < b.received_segments.length) &&
      b.received_segments.getD (offset + i) false

/-- `TpReassemblyBuffer::mark_segment_received` (src/tp/tp_reassembler.cpp
lines 225-237): resize the coverage list to `total_length` if it is
shorter, then set the in-range bits. -/
def TpReassemblyBuffer.mark_segment_received (b : TpReassemblyBuffer)
    (offset length : Nat) : TpReassemblyBuffer :=
  let cov0 := if b.received_segments.length < b.total_length then
      b.received_segments ++
        List.replicate (b.total_length - b.received_segments.length) false
    else b.received_segments
  { b with received_segments := setRange cov0 offset length }

/-- `TpReassemblyBuffer::is_complete` (src/tp/tp_reassembler.cpp lines
239-252): the `complete` flag, or every coverage bit set (vacuously true
for an empty coverage list). -/
def TpReassemblyBuffer.is_complete (b : TpReassemblyBuffer) : Bool :=
  b.complete || b.received_segments.all (fun received => received)

/-- `TpReassemblyBuffer::get_complete_message` (src/tp/tp_reassembler.cpp
lines 254-259). -/
def TpReassemblyBuffer.get_complete_message (b : TpReassemblyBuffer) : List Nat :=
  if b.is_complete then b.received_data else []

/-- `TpReassembler::validate_segment` (src/tp/tp_reassembler.cpp lines
56-73): declared length matches the payload, total message length within
the configured bound, and the segment range within the message. -/
def validate_segment (cfg : TpConfig) (seg : TpSegment) : Bool :=
  seg.segment_length == seg.payload.length &&
    decide (seg.message_length ≤ cfg.max_message_size) &&
    decide (seg.segment_offset + seg.segment_length ≤ seg.message_length)

/-- `TpReassembler::add_segment_to_buffer` (src/tp/tp_reassembler.cpp
lines 95-141).  Returns the C++ boolean and the mutated buffer: a fully
covered range is a duplicate (no mutation); an out-of-bounds range is
rejected; otherwise FIRST_SEGMENT and SINGLE_MESSAGE strip the 16-byte
SOME/IP header (copying nothing when the payload is not longer than the
header) and the other types copy verbatim, after which the received
range is marked and the last sequence number recorded. -/
def add_segment_to_buffer (buffer : TpReassemblyBuffer) (seg : TpSegment) :
    Bool × TpReassemblyBuffer :=
  if buffer.is_segment_received seg.segment_offset seg.segment_length then
    (true, buffer)
  else if seg.segment_offset + seg.segment_length > buffer.total_length then
    (false, buffer)
  else
    let step : Nat × List Nat :=
      match seg.message_type with
      | TpMessageType.FIRST_SEGMENT =>
        if seg.payload.length > 16 then
          (seg.payload.length - 16,
            overwriteFrom buffer.received_data seg.segment_offset (seg.payload.drop 16))
        else (0, buffer.received_data)
      | TpMessageType.SINGLE_MESSAGE =>
        if seg.payload.length > 16 then
          (seg.payload.length - 16,
            overwriteFrom buffer.received_data 0 (seg.payload.drop 16))
        else (0, buffer.received_data)
      | _ =>
        (seg.payload.length,
          overwriteFrom buffer.received_data seg.segment_offset seg.payload)
    let b1 := { buffer with received_data := step.2 }
    let b2 := b1.mark_segment_received seg.segment_offset step.1
    (true, { b2 with last_sequence_number := seg.sequence_number })

/-- Reassembler state: the `sequence_number → buffer` map
(`reassembly_buffers_` in include/tp/tp_reassembler.h), as an association
list with unique keys. -/
abbrev ReassemblerState := List (Nat × TpReassemblyBuffer)

/-- Map lookup `reassembly_buffers_.find(sequence_number)`. -/
def findBuffer (st : ReassemblerState) (key : Nat) : Option TpReassemblyBuffer :=
  (st.find? (fun p => p.1 == key)).map Prod.snd

/-- Map erase `reassembly_buffers_.erase(key)`. -/
def eraseBuffer (st : ReassemblerState) (key : Nat) : ReassemblerState :=
  st.filter (fun p => p.1 != key)

/-- Write-back of the in-place C++ mutation of the buffer held in the map
under `key`. -/
def updateBuffer (st : ReassemblerState) (key : Nat) (b : TpReassemblyBuffer) :
    ReassemblerState :=
  st.map (fun p => if p.1 == key then (key, b) else p)

/-- `TpReassembler::find_or_create_buffer` (src/tp/tp_reassembler.cpp
lines 75-93): look the sequence number up; when absent, create a buffer
only for FIRST_SEGMENT or SINGLE_MESSAGE -- with NO capacity check
against `max_concurrent_transfers` -- and fail otherwise. -/
def find_or_create_buffer (st : ReassemblerState) (seg : TpSegment) :
    Option (TpReassemblyBuffer × ReassemblerState) :=
  match findBuffer st seg.sequence_number with
  | some b => some (b, st)
  | none =>
    if seg.message_type = TpMessageType.FIRST_SEGMENT ∨
        seg.message_type = TpMessageType.SINGLE_MESSAGE then
      let b := mkBuffer seg.sequence_number seg.message_length
      some (b, st ++ [(seg.sequence_number, b)])
    else none

/-- `TpReassembler::process_segment` (src/tp/tp_reassembler.cpp lines
31-54).  Returns the C++ boolean, the new buffer map and the completed
message when reassembly finished on this call (in which case the buffer
is erased under its `message_id`, the key it was created with). -/
def process_segment (cfg : TpConfig) (st : ReassemblerState) (seg : TpSegment) :
    Bool × ReassemblerState × Option (List Nat) :=
  if ¬ validate_segment cfg seg then (false, st, none)
  else
    match find_or_create_buffer st seg with
    | none => (false, st, none)
    | some (buffer, st1) =>
      let r := add_segment_to_buffer buffer seg
      if r.1 ∧ r.2.is_complete then
        let b2 := { r.2 with complete := true }
        (true, eraseBuffer (updateBuffer st1 seg.sequence_number b2) b2.message_id,
          some b2.get_complete_message)
      else (true, updateBuffer st1 seg.sequence_number r.2, none)

/-- Driver feeding a list of segments to `process_segment` one by one,
returning the first completed message, as the reassembly tests do with
`handle_received_segment`. -/
def processList (cfg : TpConfig) : ReassemblerState → List TpSegment → Option (List Nat)
  | _, [] => none
  | st, s :: rest =>
    match process_segment cfg st s with
    | (_, _, some msg) => some msg
    | (_, st1, none) => processList cfg st1 rest

/-- FIRST segment of a 20-byte message carrying one payload byte, with
sequence number `i`: 17 payload bytes (16-byte header plus 1), so the
resulting buffer stays incomplete. -/
def firstSegC5 (i : Nat) : TpSegment :=
  { message_length := 20
    segment_offset := 0
    segment_length := 17
    sequence_number := i
    message_type := TpMessageType.FIRST_SEGMENT
    payload := List.replicate 17 1 }

/-- Reassembler state after feeding ten FIRST segments with sequence
numbers 0..9: ten in-flight buffers, the default
`max_concurrent_transfers`. -/
def stC5 : ReassemblerState :=
  (List.range 10).foldl
    (fun st i => (process_segment defaultTpConfig st (firstSegC5 i)).2.1) []

/-- Buffer produced by processing a fresh FIRST_SEGMENT whose payload is
longer than the 16-byte header: data and coverage carry the stripped
payload at the segment offset.  Derived description used by the C5
theorems. -/
def bufferAfterFirst (seg : TpSegment) : TpReassemblyBuffer :=
  { message_id := seg.sequence_number
    total_length := seg.message_length
    received_data := overwriteFrom (List.replicate seg.message_length 0)
      seg.segment_offset (seg.payload.drop 16)
    received_segments := setRange (List.replicate seg.message_length false)
      seg.segment_offset (seg.payload.length - 16)
    last_sequence_number := seg.sequence_number
    complete := false }

/-- Invariant of a single reassembly buffer for payload `P` under map key
`key`: created with the right id and size, not yet complete, and every
covered byte equal to the corresponding payload byte. -/
def BufferInv (P : List Nat) (key : Nat) (b : TpReassemblyBuffer) : Prop :=
  b.message_id = key ∧
  b.total_length = P.length ∧
  b.received_data.length = P.length ∧
  b.received_segments.length = P.length ∧
  b.complete = false ∧
  ∀ i, i < P.length → b.received_segments.getD i false = true →
    b.received_data.getD i 0 = P.getD i 0

/-- Well-formed non-FIRST segment of the payload `P` for sequence `key`:
a CONSECUTIVE or LAST segment whose declared range lies within `P` and
whose payload is exactly the corresponding slice of `P`. -/
def SegOK (P : List Nat) (key : Nat) (s : TpSegment) : Prop :=
  (s.message_type = TpMessageType.CONSECUTIVE_SEGMENT ∨
    s.message_type = TpMessageType.LAST_SEGMENT) ∧
  s.sequence_number = key ∧
  s.message_length = P.length ∧
  s.segment_offset + s.segment_length ≤ P.length ∧
  s.segment_length = s.payload.length ∧
  s.payload = (P.drop s.segment_offset).take s.segment_length

/-- Effect of `add_segment_to_buffer` for a CONSECUTIVE or LAST segment
on a buffer whose coverage list is already at full size: payload copied
at the offset, the same range marked, the last sequence number recorded.
Derived description used by the reassembly proofs. -/
def writeSegment (b : TpReassemblyBuffer) (s : TpSegment) : TpReassemblyBuffer :=
  { message_id := b.message_id
    total_length := b.total_length
    received_data := overwriteFrom b.received_data s.segment_offset s.payload
    received_segments := setRange b.received_segments s.segment_offset s.payload.length
    last_sequence_number := s.sequence_number
    complete := b.complete }

/-- Placeholder segment used only as the `getD` default below. -/
def dummySeg : TpSegment :=
  { message_length := 0, segment_offset := 0, segment_length := 0,
    sequence_number := 0, message_type := TpMessageType.SINGLE_MESSAGE,
    payload := [] }

/-- The three segments the segmenter produces for `msgPay30` under
`cfg20`: FIRST (header + 4 payload bytes), CONSECUTIVE (20 bytes),
LAST (6 bytes). -/
def segsC3 : List TpSegment :=
  ((segment_message cfg20 msgPay30 5).getD (TpResult.SUCCESS, [])).2

/-- The permutation [LAST, FIRST, CONSECUTIVE] of `segsC3`. -/
def permC3 : List TpSegment :=
  [segsC3.getD 2 dummySeg, segsC3.getD 0 dummySeg, segsC3.getD 1 dummySeg]

/-- Length of a serialized message: the 16-byte header plus the payload. -/
theorem Message.serialize_length (m : Message) :
    m.serialize.length = 16 + m.payload.length := by
  simp [Message.serialize, be32]
  omega

/-- A valid well-formed message has `length = 8 + |payload|`: the
`uint32_t` consistency check cannot be satisfied by wrap-around because a
valid payload has at most 65535 bytes. -/
theorem Message.length_of_valid (m : Message) (hwf : m.wf)
    (hv : m.is_valid = true) : m.length = 8 + m.payload.length := by
  obtain ⟨-, -, hlen, -⟩ := hwf
  simp only [Message.is_valid, Message.has_valid_header, Message.has_valid_payload,
    Bool.and_eq_true, beq_iff_eq, decide_eq_true_eq] at hv
  omega

/-- Reassembling the four big-endian bytes of a 32-bit value recovers the
value. -/
theorem be32_readback (v : Nat) (hv : v < 2 ^ 32) :
    v / 2 ^ 24 % 256 * 2 ^ 24 + v / 2 ^ 16 % 256 * 2 ^ 16 +
      v / 2 ^ 8 % 256 * 2 ^ 8 + v % 256 = v := by
  omega

/-- C1: for every valid well-formed `Message m`, deserializing
`Message::serialize m` succeeds and returns a message equal to `m` in
every header field and in the payload. -/
theorem c1_serialize_deserialize_roundtrip (m : Message) (hwf : m.wf)
    (hv : m.is_valid = true) : Message.deserialize m.serialize = some m := by
  have hlen := m.length_of_valid hwf hv
  obtain ⟨hs, hme, hl, hc, hse, hpv, hiv, hmt, hrc⟩ := hwf
  have hpay : m.payload.length ≤ 65535 := by
    simp only [Message.is_valid, Message.has_valid_payload, Bool.and_eq_true,
      decide_eq_true_eq] at hv
    exact hv.2
  cases m with
  | mk s me l c se pv iv mt rc p =>
  simp only at hs hme hl hc hse hpv hiv hmt hrc hlen hpay
  simp only [Message.serialize, be32, List.cons_append, List.nil_append]
  simp only [Message.deserialize, readBe32, List.length_cons,
    List.getD_cons_zero, List.getD_cons_succ, List.drop_succ_cons, List.drop_zero]
  have hlen16 : ¬ (p.length + 16 < 16) := by omega
  rw [if_neg hlen16]
  rw [Nat.mod_eq_of_lt hs, Nat.mod_eq_of_lt hme, Nat.mod_eq_of_lt hl,
    Nat.mod_eq_of_lt hc, Nat.mod_eq_of_lt hse]
  rw [be32_readback (s * 2 ^ 16 + me) (by omega),
    be32_readback l (by omega),
    be32_readback (c * 2 ^ 16 + se) (by omega)]
  have hmsg :
      ({ service_id := (s * 2 ^ 16 + me) / 2 ^ 16 % 2 ^ 16,
         method_id := (s * 2 ^ 16 + me) % 2 ^ 16, length := l,
         client_id := (c * 2 ^ 16 + se) / 2 ^ 16 % 2 ^ 16,
         session_id := (c * 2 ^ 16 + se) % 2 ^ 16,
         protocol_version := pv % 2 ^ 8, interface_version := iv % 2 ^ 8,
         message_type := mt % 2 ^ 8, return_code := rc % 2 ^ 8,
         payload := p } : Message)
        = Message.mk s me l c se pv iv mt rc p := by
    simp only [Message.mk.injEq]
    refine ⟨?_, ?_, trivial, ?_, ?_, ?_, ?_, ?_, ?_, trivial⟩ <;> omega
  rw [hmsg]
  have h8 : ¬ (l < 8) := by omega
  rw [if_neg h8]
  have heq : ¬ (p.length + 16 - 16 ≠ l - 8) := by omega
  rw [if_neg heq, hv]
  simp

/-- C1 witness: the roundtrip theorem applied to the hello-world message
of spec scenario S1. -/
theorem c1_witness :
    msgS1.wf ∧ msgS1.is_valid = true ∧
      Message.deserialize msgS1.serialize = some msgS1 :=
  ⟨by decide, by decide,
    c1_serialize_deserialize_roundtrip msgS1 (by decide) (by decide)⟩

/-- C2 counterexample: `Message::serialize` does not recompute the length
field from the payload.  A message whose stored length is 99 and whose
payload is empty serializes with bytes 4..8 equal to big-endian 99, not
big-endian `8 + 0 = 8`. -/
theorem c2_counterexample :
    ¬ (∀ m : Message, m.wf →
        (m.serialize.drop 4).take 4 = be32 ((8 + m.payload.length) % 2 ^ 32)) := by
  intro h
  exact absurd (h msgLen99 (by decide)) (by decide)

/-- C2 amended: `Message::serialize` writes bytes 4..8 of its output as
the big-endian 32-bit value of the stored `length_` field, which equals
`8 + |payload|` only while the length invariant holds (it is maintained by
the constructors, `set_payload` and `update_length`, but `serialize` does
not re-establish it after `set_length`). -/
theorem c2_amended_length_field (m : Message) :
    (m.serialize.drop 4).take 4 = be32 (m.length % 2 ^ 32) := by
  simp [Message.serialize, be32]

/-- C9 counterexample: `MAX_TCP_PAYLOAD_SIZE` is 65535 in the code
(include/someip/message.h line 153), not 65527, so a header-valid message
with a 65528-byte payload passes `Message::is_valid`. -/
theorem c9_counterexample :
    ¬ (∀ m : Message, m.has_valid_header = true →
        (m.is_valid = true ↔ m.payload.length ≤ 65527)) := by
  intro h
  have hplen : msg65528.payload.length = 65528 := by
    show (List.replicate 65528 (0 : Nat)).length = 65528
    rw [List.length_replicate]
  have hhdr : msg65528.has_valid_header = true := by
    simp only [Message.has_valid_header, hplen]
    decide
  have hval : msg65528.is_valid = true := by
    simp only [Message.is_valid, Message.has_valid_payload, hhdr,
      Bool.true_and, hplen]
    decide
  have h2 := (h msg65528 hhdr).mp hval
  omega

/-- C9 amended: for every message whose header-level invariants hold,
`Message::is_valid` returns true if and only if the payload size is at
most 65535 bytes (`MAX_TCP_PAYLOAD_SIZE`); payloads of 65528 to 65535
bytes are still valid. -/
theorem c9_amended_payload_bound (m : Message)
    (hh : m.has_valid_header = true) :
    m.is_valid = true ↔ m.payload.length ≤ 65535 := by
  simp [Message.is_valid, Message.has_valid_payload, hh]

/-- C9 witness: the amended bound theorem applied to the S1 message. -/
theorem c9_witness :
    msgS1.has_valid_header = true ∧
      (msgS1.is_valid = true ↔ msgS1.payload.length ≤ 65535) :=
  ⟨by decide, c9_amended_payload_bound msgS1 (by decide)⟩

/-- C10 counterexample: `Deserializer::deserialize_string` can fail with
`MALFORMED_MESSAGE` after having moved the cursor.  On the 4-byte buffer
`[0,0,0,5]` the length prefix reads as 5, the cursor advances to 4, and
the body check then fails, leaving the cursor at 4, not 0. -/
theorem c10_counterexample :
    ¬ (∀ d : Deserializer,
        (d.deserialize_bool.1 = none → d.deserialize_bool.2.position = d.position) ∧
        (d.deserialize_uint8.1 = none → d.deserialize_uint8.2.position = d.position) ∧
        (d.deserialize_uint16.1 = none → d.deserialize_uint16.2.position = d.position) ∧
        (d.deserialize_uint32.1 = none → d.deserialize_uint32.2.position = d.position) ∧
        (d.deserialize_uint64.1 = none → d.deserialize_uint64.2.position = d.position) ∧
        (d.deserialize_string.1 = none → d.deserialize_string.2.position = d.position)) := by
  intro h
  have hs := (h (Deserializer.mk [0, 0, 0, 5] 0)).2.2.2.2.2
  exact absurd (hs (by decide)) (by decide)

/-- C10 amended: every fixed-size read leaves the cursor exactly where it
was when it fails on a short input, and `deserialize_string` leaves the
cursor unchanged when the 4-byte length prefix itself cannot be read, but
leaves it exactly 4 bytes past the original position when the prefix was
consumed and the declared body then crosses the end of the buffer. -/
theorem c10_amended_cursor_on_failure :
    (∀ d : Deserializer, d.deserialize_bool.1 = none →
      d.deserialize_bool.2.position = d.position) ∧
    (∀ d : Deserializer, d.deserialize_uint8.1 = none →
      d.deserialize_uint8.2.position = d.position) ∧
    (∀ d : Deserializer, d.deserialize_uint16.1 = none →
      d.deserialize_uint16.2.position = d.position) ∧
    (∀ d : Deserializer, d.deserialize_uint32.1 = none →
      d.deserialize_uint32.2.position = d.position) ∧
    (∀ d : Deserializer, d.deserialize_uint64.1 = none →
      d.deserialize_uint64.2.position = d.position) ∧
    (∀ d : Deserializer, d.deserialize_string.1 = none →
      (d.position + 4 > d.buffer.length ∧
        d.deserialize_string.2.position = d.position) ∨
      (d.position + 4 ≤ d.buffer.length ∧
        d.deserialize_string.2.position = d.position + 4)) := by
  refine ⟨?_, ?_, ?_, ?_, ?_, ?_⟩
  · intro d h
    by_cases hc : d.position + 1 > d.buffer.length
    · simp [Deserializer.deserialize_bool, hc]
    · simp [Deserializer.deserialize_bool, hc] at h
  · intro d h
    by_cases hc : d.position + 1 > d.buffer.length
    · simp [Deserializer.deserialize_uint8, hc]
    · simp [Deserializer.deserialize_uint8, hc] at h
  · intro d h
    by_cases hc : d.position + 2 > d.buffer.length
    · simp [Deserializer.deserialize_uint16, Deserializer.read_be_uint16, hc]
    · simp [Deserializer.deserialize_uint16, Deserializer.read_be_uint16, hc] at h
  · intro d h
    by_cases hc : d.position + 4 > d.buffer.length
    · simp [Deserializer.deserialize_uint32, Deserializer.read_be_uint32, hc]
    · simp [Deserializer.deserialize_uint32, Deserializer.read_be_uint32, hc] at h
  · intro d h
    by_cases hc : d.position + 8 > d.buffer.length
    · simp [Deserializer.deserialize_uint64, Deserializer.read_be_uint64, hc]
    · simp [Deserializer.deserialize_uint64, Deserializer.read_be_uint64, hc] at h
  · intro d h
    by_cases hc : d.position + 4 > d.buffer.length
    · left
      refine ⟨hc, ?_⟩
      have h32 : d.deserialize_uint32 = (none, d) := by
        simp [Deserializer.deserialize_uint32, Deserializer.read_be_uint32, hc]
      simp only [Deserializer.deserialize_string, h32]
    · right
      refine ⟨by omega, ?_⟩
      have h32 : d.deserialize_uint32 =
          (some (d.buffer.getD d.position 0 * 2 ^ 24 +
              d.buffer.getD (d.position + 1) 0 * 2 ^ 16 +
              d.buffer.getD (d.position + 2) 0 * 2 ^ 8 +
              d.buffer.getD (d.position + 3) 0),
            Deserializer.mk d.buffer (d.position + 4)) := by
        simp [Deserializer.deserialize_uint32, Deserializer.read_be_uint32, hc]
      simp only [Deserializer.deserialize_string, h32] at h ⊢
      by_cases hb : d.position + 4 +
          (d.buffer.getD d.position 0 * 2 ^ 24 +
            d.buffer.getD (d.position + 1) 0 * 2 ^ 16 +
            d.buffer.getD (d.position + 2) 0 * 2 ^ 8 +
            d.buffer.getD (d.position + 3) 0) > d.buffer.length
      · rw [if_pos hb]
      · rw [if_neg hb] at h
        simp at h

/-- C10 witness: the cursor theorems applied to concrete short buffers.
A `deserialize_uint16` on an empty buffer fails in place, and a
`deserialize_string` on `[0,0,0,5]` fails with the cursor at 4. -/
theorem c10_witness :
    ((Deserializer.mk [] 0).deserialize_uint16.1 = none →
      (Deserializer.mk [] 0).deserialize_uint16.2.position = 0) ∧
    ((Deserializer.mk [0, 0, 0, 5] 0).deserialize_string.1 = none →
      (0 + 4 > (Deserializer.mk [0, 0, 0, 5] 0).buffer.length ∧
        (Deserializer.mk [0, 0, 0, 5] 0).deserialize_string.2.position = 0) ∨
      (0 + 4 ≤ (Deserializer.mk [0, 0, 0, 5] 0).buffer.length ∧
        (Deserializer.mk [0, 0, 0, 5] 0).deserialize_string.2.position = 0 + 4)) :=
  ⟨c10_amended_cursor_on_failure.2.2.1 (Deserializer.mk [] 0),
    c10_amended_cursor_on_failure.2.2.2.2.2 (Deserializer.mk [0, 0, 0, 5] 0)⟩

/-- C4: `ServiceEntry::serialize` produces 14 bytes for every entry, not
the 16 bytes the claim, the spec and the code's own comment
(`data.reserve(16); // SD entry is 16 bytes`) state: the ttl occupies
four bytes instead of three and `minor_version` is never written, so a
serialized service entry cannot even satisfy the 16-byte bound check of
`SdEntry::deserialize`. -/
theorem c4_service_entry_serialize_length (e : ServiceEntry) :
    e.serialize.length = 14 := by
  simp [ServiceEntry.serialize, sdEntrySerializeBase]

/-- C8 counterexample: on `sdC8data` the code neither fails nor advances
16 bytes past the unknown entry.  It advances one byte, then parses a
service entry out of the interior bytes of what the claim regards as the
unknown 16-byte entry, and succeeds -- a different result from the
16-byte-skip decoder, which decodes no entry at all. -/
theorem c8_counterexample :
    ¬ (∀ data : List Nat,
        SdMessage.deserialize data = none ∨
        SdMessage.deserialize data = SdMessage.deserializeSkip16 data) := by
  intro h
  rcases h sdC8data with h1 | h2
  · exact absurd h1 (by decide)
  · exact absurd h2 (by decide)

/-- C8 amended: an entry whose type byte is not 0x00, 0x01, 0x06 or 0x07
causes the parse loop to advance the cursor by exactly one byte and to
decrement the remaining entries length by one, after which parsing
continues at the next byte; the 16-byte entry framing is not preserved. -/
theorem c8_amended_unknown_type_advances_one_byte
    (data : List Nat) (length fuel offset eol : Nat) (acc : List SdEntryParsed)
    (h0 : eol ≠ 0) (h1 : offset + 1 ≤ data.length)
    (ht0 : data.getD offset 0 ≠ 0) (ht1 : data.getD offset 0 ≠ 1)
    (ht6 : data.getD offset 0 ≠ 6) (ht7 : data.getD offset 0 ≠ 7) :
    sdParseLoop data length (fuel + 1) offset eol acc =
      sdParseLoop data length fuel (offset + 1) (eol - 1) acc := by
  have hlt : ¬ (offset + 1 > data.length) := by omega
  simp only [sdParseLoop, if_neg h0, if_neg hlt]
  rw [if_neg (by tauto), if_neg (by tauto)]

/-- C8 witness: the one-byte-advance theorem applied to a single unknown
type byte 0x02. -/
theorem c8_witness :
    (1 : Nat) ≠ 0 ∧ (0 : Nat) + 1 ≤ [(2 : Nat)].length ∧
      [(2 : Nat)].getD 0 0 ≠ 0 ∧ [(2 : Nat)].getD 0 0 ≠ 1 ∧
      [(2 : Nat)].getD 0 0 ≠ 6 ∧ [(2 : Nat)].getD 0 0 ≠ 7 ∧
      sdParseLoop [2] 1 2 0 1 [] = sdParseLoop [2] 1 1 1 0 [] :=
  ⟨by decide, by decide, by decide, by decide, by decide, by decide,
    c8_amended_unknown_type_advances_one_byte [2] 1 1 0 1 []
      (by decide) (by decide) (by decide) (by decide) (by decide) (by decide)⟩

/-- C6 counterexample: with `max_segment_size = 100` a message with a
100-byte payload serializes to 116 bytes, yet the segmenter emits a
single SINGLE_MESSAGE segment: the code compares the payload size alone
against `max_segment_size`, not the serialized size `16 + N`. -/
theorem c6_counterexample :
    ¬ (∀ (cfg : TpConfig) (m : Message) (seq : Nat),
        m.payload.length ≤ cfg.max_message_size →
        (segment_message cfg m seq = some (TpResult.SUCCESS,
            [{ message_length := m.payload.length % 2 ^ 32
               segment_offset := 0
               segment_length := m.serialize.length % 2 ^ 16
               sequence_number := seq % 2 ^ 8
               message_type := TpMessageType.SINGLE_MESSAGE
               payload := m.serialize }]) ↔
          16 + m.payload.length ≤ cfg.max_segment_size)) := by
  intro h
  have h100 := (h cfg100 msgPay100 0 (by decide)).mp (by decide)
  exact absurd h100 (by decide)

/-- Shape of `create_multi_segments`: when it terminates, the output
list starts with a FIRST_SEGMENT. -/
theorem create_multi_segments_shape (cfg : TpConfig) (m : Message)
    (seq : Nat) :
    create_multi_segments cfg m seq = none ∨
      ∃ first rest, create_multi_segments cfg m seq = some (first :: rest) ∧
        first.message_type = TpMessageType.FIRST_SEGMENT := by
  cases hmr : multiRest cfg m.payload (m.payload.length % 2 ^ 32) seq
      (m.payload.length % 2 ^ 32 + 1) (firstSizeOf cfg m % 2 ^ 16) with
  | none =>
    left
    simp only [create_multi_segments, hmr]
    rfl
  | some rest =>
    right
    refine ⟨firstSegmentOf cfg m seq, rest, ?_, rfl⟩
    simp only [create_multi_segments, hmr]
    rfl

/-- C6 amended: the segmenter emits exactly one SINGLE_MESSAGE segment --
carrying the full serialized message, `segment_offset = 0`,
`segment_length = 16 + N` and `message_length = N` -- if and only if the
PAYLOAD size `N` is at most `max_segment_size`; the 16-byte header is
excluded from the comparison, so a message whose serialized size is up to
`max_segment_size + 16` is still not split. -/
theorem c6_amended_single_segment_iff (cfg : TpConfig) (m : Message)
    (seq : Nat) (hmm : m.payload.length ≤ cfg.max_message_size) :
    segment_message cfg m seq = some (TpResult.SUCCESS,
        [{ message_length := m.payload.length % 2 ^ 32
           segment_offset := 0
           segment_length := m.serialize.length % 2 ^ 16
           sequence_number := seq % 2 ^ 8
           message_type := TpMessageType.SINGLE_MESSAGE
           payload := m.serialize }]) ↔
      m.payload.length ≤ cfg.max_segment_size := by
  have hns : ¬ (m.payload.length > cfg.max_message_size) := by omega
  constructor
  · intro heq
    by_contra hgt
    simp only [segment_message, if_neg hns, if_neg hgt] at heq
    rcases create_multi_segments_shape cfg m seq with hsh | ⟨first, rest, hsh, hty⟩
    · rw [hsh] at heq
      simp at heq
    · rw [hsh] at heq
      have heq2 := Option.some.inj heq
      have hlist := congrArg Prod.snd heq2
      simp only at hlist
      injection hlist with hfirst hrest
      have hmt := congrArg TpSegment.message_type hfirst
      rw [hty] at hmt
      simp at hmt
  · intro hle
    simp [segment_message, if_neg hns, hle]

/-- C6 witness: the single-segment characterization applied to the S1
message under the default configuration. -/
theorem c6_witness :
    msgS1.payload.length ≤ defaultTpConfig.max_message_size ∧
      (segment_message defaultTpConfig msgS1 7 = some (TpResult.SUCCESS,
          [{ message_length := msgS1.payload.length % 2 ^ 32
             segment_offset := 0
             segment_length := msgS1.serialize.length % 2 ^ 16
             sequence_number := 7 % 2 ^ 8
             message_type := TpMessageType.SINGLE_MESSAGE
             payload := msgS1.serialize }]) ↔
        msgS1.payload.length ≤ defaultTpConfig.max_segment_size) :=
  ⟨by decide, c6_amended_single_segment_iff defaultTpConfig msgS1 7 (by decide)⟩

/-- An exhausted offset ends the segment loop at once, whatever the fuel. -/
theorem multiRest_done (cfg : TpConfig) (P : List Nat) (N seq : Nat)
    (fuel offset : Nat) (h : ¬ offset < N) :
    multiRest cfg P N seq fuel offset = some [] := by
  cases fuel with
  | zero => simp [multiRest, h]
  | succ f => simp [multiRest, h]

/-- Unfolding of one loop iteration of `multiRest` when the offset has
not yet reached the total length. -/
theorem multiRest_succ (cfg : TpConfig) (P : List Nat) (N seq f offset : Nat)
    (h : offset < N) :
    multiRest cfg P N seq (f + 1) offset =
      match multiRest cfg P N seq f
          ((offset + (min cfg.max_segment_size (N - offset)) % 2 ^ 16) % 2 ^ 16) with
      | some rest => some
          ({ message_length := N
             segment_offset := offset
             segment_length := (min cfg.max_segment_size (N - offset)) % 2 ^ 16
             sequence_number := seq % 2 ^ 8
             message_type := if N - offset ≤ cfg.max_segment_size then
               TpMessageType.LAST_SEGMENT else TpMessageType.CONSECUTIVE_SEGMENT
             payload := (P.drop offset).take
               ((min cfg.max_segment_size (N - offset)) % 2 ^ 16) } :: rest)
      | none => none := by
  simp only [multiRest, if_pos h]

/-- Unfolding of one step of the spec reference list. -/
theorem specRestFrom_succ (cfg : TpConfig) (P : List Nat) (N seq k offset : Nat) :
    specRestFrom cfg P N seq (k + 1) offset =
      if N - offset ≤ cfg.max_segment_size then
        [{ message_length := N
           segment_offset := offset
           segment_length := N - offset
           sequence_number := seq % 2 ^ 8
           message_type := TpMessageType.LAST_SEGMENT
           payload := (P.drop offset).take (N - offset) }]
      else
        { message_length := N
          segment_offset := offset
          segment_length := cfg.max_segment_size
          sequence_number := seq % 2 ^ 8
          message_type := TpMessageType.CONSECUTIVE_SEGMENT
          payload := (P.drop offset).take cfg.max_segment_size } ::
          specRestFrom cfg P N seq k (offset + cfg.max_segment_size) := by
  simp only [specRestFrom]

/-- The segment loop of `create_multi_segments` computes the spec's
reference list, provided the total length fits the 16-bit offset
arithmetic and the fuel and depth bound are large enough. -/
theorem multiRest_eq_specRestFrom (cfg : TpConfig) (P : List Nat)
    (N seq : Nat) (hN : N ≤ 65535) :
    ∀ (k fuel offset : Nat), offset < N →
      N - offset ≤ k * cfg.max_segment_size → k ≤ fuel →
      multiRest cfg P N seq fuel offset = some (specRestFrom cfg P N seq k offset) := by
  intro k
  induction k with
  | zero =>
    intro fuel offset hoff hk _
    omega
  | succ k ih =>
    intro fuel offset hoff hk hfuel
    cases fuel with
    | zero => omega
    | succ f =>
      have hka : (k + 1) * cfg.max_segment_size =
          k * cfg.max_segment_size + cfg.max_segment_size := by ring
      rw [hka] at hk
      rw [multiRest_succ cfg P N seq f offset hoff,
        specRestFrom_succ cfg P N seq k offset]
      by_cases hrem : N - offset ≤ cfg.max_segment_size
      · have hmin : min cfg.max_segment_size (N - offset) = N - offset :=
          min_eq_right hrem
        have hlen2 : (N - offset) % 2 ^ 16 = N - offset := by omega
        have hoffN : (offset + (N - offset)) % 2 ^ 16 = N := by omega
        have hrec := multiRest_done cfg P N seq f N (by omega)
        rw [hmin, hlen2, hoffN, hrec, if_pos hrem, if_pos hrem]
      · have hmin : min cfg.max_segment_size (N - offset) = cfg.max_segment_size :=
          min_eq_left (by omega)
        have hlenC : cfg.max_segment_size % 2 ^ 16 = cfg.max_segment_size := by
          omega
        have hoffC : (offset + cfg.max_segment_size) % 2 ^ 16 =
            offset + cfg.max_segment_size := by
          omega
        have hrec := ih f (offset + cfg.max_segment_size) (by omega) (by omega)
          (by omega)
        rw [hmin, hlenC, hoffC, hrec, if_neg hrem, if_neg hrem]

/-- Layout of the segmenter output for a payload that the code splits
(`N > max_segment_size` with `N` within `max_message_size`), provided
`max_segment_size ≥ 16` (a smaller value wraps the `uint32_t` subtraction
`max_segment_size - 16` and the FIRST segment swallows the whole payload
with no LAST emitted) and `N ≤ 65535` (a larger payload overflows the
16-bit `payload_offset` and the loop never terminates): one FIRST_SEGMENT
carrying the 16-byte SOME/IP header plus the first `max_segment_size - 16`
payload bytes at offset 0 with `message_length = N`, followed by the
spec's CONSECUTIVE/LAST reference list, all sharing one sequence
number. -/
theorem segment_message_multi_layout (cfg : TpConfig) (m : Message)
    (seq : Nat) (h16 : 16 ≤ cfg.max_segment_size)
    (hsplit : cfg.max_segment_size < m.payload.length)
    (hN : m.payload.length ≤ 65535)
    (hmm : m.payload.length ≤ cfg.max_message_size) :
    segment_message cfg m seq = some (TpResult.SUCCESS,
      { message_length := m.payload.length
        segment_offset := 0
        segment_length := cfg.max_segment_size
        sequence_number := seq % 2 ^ 8
        message_type := TpMessageType.FIRST_SEGMENT
        payload := m.serialize.take 16 ++
          m.payload.take (cfg.max_segment_size - 16) } ::
      specRestFrom cfg m.payload m.payload.length seq m.payload.length
        (cfg.max_segment_size - 16)) := by
  have hN32 : m.payload.length % 2 ^ 32 = m.payload.length := by omega
  have hfs : firstSizeOf cfg m = cfg.max_segment_size - 16 := by
    unfold firstSizeOf
    rw [hN32]
    have hwrap : (cfg.max_segment_size + (2 ^ 32 - 16)) % 2 ^ 32 =
        cfg.max_segment_size - 16 := by
      omega
    rw [hwrap]
    omega
  have hfs16 : firstSizeOf cfg m % 2 ^ 16 = cfg.max_segment_size - 16 := by
    rw [hfs]
    omega
  have hmul : m.payload.length - (cfg.max_segment_size - 16) ≤
      m.payload.length * cfg.max_segment_size := by
    have h1 : m.payload.length * 1 ≤ m.payload.length * cfg.max_segment_size :=
      Nat.mul_le_mul_left m.payload.length (by omega)
    omega
  have hrest := multiRest_eq_specRestFrom cfg m.payload m.payload.length seq hN
    m.payload.length (m.payload.length + 1) (cfg.max_segment_size - 16)
    (by omega) hmul (by omega)
  have hns : ¬ (m.payload.length > cfg.max_message_size) := by omega
  have hgt : ¬ (m.payload.length ≤ cfg.max_segment_size) := by omega
  simp only [segment_message, if_neg hns, if_neg hgt, create_multi_segments,
    hN32, hfs16, hrest, Option.map_map]
  have hseg : firstSegmentOf cfg m seq =
      { message_length := m.payload.length
        segment_offset := 0
        segment_length := cfg.max_segment_size
        sequence_number := seq % 2 ^ 8
        message_type := TpMessageType.FIRST_SEGMENT
        payload := m.serialize.take 16 ++
          m.payload.take (cfg.max_segment_size - 16) } := by
    unfold firstSegmentOf
    rw [hfs, hN32]
    have hsl : (16 + (cfg.max_segment_size - 16)) % 2 ^ 16 =
        cfg.max_segment_size := by
      omega
    rw [hsl]
  rw [hseg]
  rfl

/-- C7 amended: for every message the code splits, the output is one
FIRST_SEGMENT (16-byte header plus the first `max_segment_size - 16`
payload bytes, offset 0, `message_length = N`), zero or more CONSECUTIVE
segments of exactly `max_segment_size` bytes at the offset of the bytes
already sent, and one final LAST segment of the remaining
`1..max_segment_size` bytes at offset `N - |last payload|`, all sharing
one sequence number -- PROVIDED `max_segment_size ≥ 16` and
`N ≤ 65535`. -/
theorem c7_amended_multi_segment_layout (cfg : TpConfig) (m : Message)
    (seq : Nat) (h16 : 16 ≤ cfg.max_segment_size)
    (hsplit : cfg.max_segment_size < m.payload.length)
    (hN : m.payload.length ≤ 65535)
    (hmm : m.payload.length ≤ cfg.max_message_size) :
    segment_message cfg m seq = some (TpResult.SUCCESS,
      { message_length := m.payload.length
        segment_offset := 0
        segment_length := cfg.max_segment_size
        sequence_number := seq % 2 ^ 8
        message_type := TpMessageType.FIRST_SEGMENT
        payload := m.serialize.take 16 ++
          m.payload.take (cfg.max_segment_size - 16) } ::
      specRestFrom cfg m.payload m.payload.length seq m.payload.length
        (cfg.max_segment_size - 16)) :=
  segment_message_multi_layout cfg m seq h16 hsplit hN hmm

/-- C7 counterexample: with `max_segment_size = 10` an 11-byte payload
requires splitting, yet the `uint32_t` wrap of `max_segment_size - 16`
makes the FIRST segment swallow the whole payload and the segmenter emits
exactly one segment -- no LAST_SEGMENT at all, refuting the claimed
FIRST/CONSECUTIVE/LAST output shape. -/
theorem c7_counterexample :
    ¬ (∀ (cfg : TpConfig) (m : Message) (seq : Nat),
        cfg.max_segment_size < m.payload.length →
        m.payload.length ≤ cfg.max_message_size →
        ∃ segs, segment_message cfg m seq = some (TpResult.SUCCESS, segs) ∧
          2 ≤ segs.length ∧
          segs.head?.map TpSegment.message_type = some TpMessageType.FIRST_SEGMENT ∧
          segs.getLast?.map TpSegment.message_type = some TpMessageType.LAST_SEGMENT) := by
  intro h
  obtain ⟨segs, heq, hlen2, -, -⟩ := h cfg10 msgPay11 0 (by decide) (by decide)
  have hcode : (segment_message cfg10 msgPay11 0).map (fun r => r.2.length) =
      some 1 := by decide
  rw [heq] at hcode
  simp at hcode
  omega

/-- C7 witness: the multi-segment layout theorem applied to a 30-byte
payload with 20-byte segments (FIRST with 4 payload bytes, one
CONSECUTIVE with 20, one LAST with 6). -/
theorem c7_witness :
    16 ≤ cfg20.max_segment_size ∧
      cfg20.max_segment_size < msgPay30.payload.length ∧
      msgPay30.payload.length ≤ 65535 ∧
      msgPay30.payload.length ≤ cfg20.max_message_size ∧
      segment_message cfg20 msgPay30 5 = some (TpResult.SUCCESS,
        { message_length := msgPay30.payload.length
          segment_offset := 0
          segment_length := cfg20.max_segment_size
          sequence_number := 5 % 2 ^ 8
          message_type := TpMessageType.FIRST_SEGMENT
          payload := msgPay30.serialize.take 16 ++
            msgPay30.payload.take (cfg20.max_segment_size - 16) } ::
        specRestFrom cfg20 msgPay30.payload msgPay30.payload.length 5
          msgPay30.payload.length (cfg20.max_segment_size - 16)) :=
  ⟨by decide, by decide, by decide, by decide,
    c7_amended_multi_segment_layout cfg20 msgPay30 5
      (by decide) (by decide) (by decide) (by decide)⟩

/-- Length is preserved by `overwriteFrom`. -/
theorem overwriteFrom_length (dst : List Nat) :
    ∀ (off : Nat) (src : List Nat), (overwriteFrom dst off src).length = dst.length := by
  induction dst with
  | nil => intro off src; cases off <;> cases src <;> rfl
  | cons d rest ih =>
    intro off src
    cases off with
    | zero =>
      cases src with
      | nil => rfl
      | cons s srest => simp [overwriteFrom, ih 0 srest]
    | succ off => simp [overwriteFrom, ih off src]

/-- Pointwise description of `overwriteFrom`: inside the written range
the source byte appears, elsewhere the destination byte. -/
theorem overwriteFrom_getD (dst : List Nat) :
    ∀ (off : Nat) (src : List Nat) (i : Nat),
      (overwriteFrom dst off src).getD i 0 =
        if off ≤ i ∧ i < off + src.length ∧ i < dst.length then src.getD (i - off) 0
        else dst.getD i 0 := by
  induction dst with
  | nil =>
    intro off src i
    cases off <;> cases src <;> simp [overwriteFrom]
  | cons d rest ih =>
    intro off src i
    cases off with
    | zero =>
      cases src with
      | nil => simp [overwriteFrom]
      | cons s srest =>
        cases i with
        | zero => simp [overwriteFrom]
        | succ i =>
          simp only [overwriteFrom, List.getD_cons_succ, ih 0 srest i,
            List.length_cons, Nat.sub_zero]
          split_ifs with h1 h2 h3 <;> first | rfl | (exfalso; omega)
    | succ off =>
      cases i with
      | zero => simp [overwriteFrom, Nat.succ_le_iff]
      | succ i =>
        simp only [overwriteFrom, List.getD_cons_succ, ih off src i,
          List.length_cons]
        have hsub : i + 1 - (off + 1) = i - off := by omega
        split_ifs with h1 h2 h3 <;> first | rfl | (exfalso; omega) | rw [hsub]

/-- Length is preserved by `setRange`. -/
theorem setRange_length (l : List Bool) :
    ∀ (off len : Nat), (setRange l off len).length = l.length := by
  induction l with
  | nil => intro off len; cases off <;> cases len <;> rfl
  | cons v rest ih =>
    intro off len
    cases off with
    | zero =>
      cases len with
      | zero => rfl
      | succ len => simp [setRange, ih 0 len]
    | succ off => simp [setRange, ih off len]

/-- Pointwise description of `setRange`: bits in the range (and in the
list) become true, other bits are unchanged. -/
theorem setRange_getD (l : List Bool) :
    ∀ (off len i : Nat),
      (setRange l off len).getD i false =
        if off ≤ i ∧ i < off + len ∧ i < l.length then true
        else l.getD i false := by
  induction l with
  | nil =>
    intro off len i
    cases off <;> cases len <;> simp [setRange]
  | cons v rest ih =>
    intro off len i
    cases off with
    | zero =>
      cases len with
      | zero => simp [setRange]
      | succ len =>
        cases i with
        | zero => simp [setRange]
        | succ i =>
          simp only [setRange, List.getD_cons_succ, ih 0 len i, List.length_cons]
          split_ifs with h1 h2 h3 <;> first | rfl | (exfalso; omega)
    | succ off =>
      cases i with
      | zero => simp [setRange, Nat.succ_le_iff]
      | succ i =>
        simp only [setRange, List.getD_cons_succ, ih off len i, List.length_cons]
        split_ifs with h1 h2 h3 <;> first | rfl | (exfalso; omega)

/-- Value of `getD` on a replicated list whose default matches the
replicated element. -/
theorem replicate_getD {α : Type} (n : Nat) (a : α) :
    ∀ (i : Nat), (List.replicate n a).getD i a = a := by
  induction n with
  | zero => intro i; simp
  | succ n ih =>
    intro i
    cases i with
    | zero => simp [List.replicate]
    | succ i => simp only [List.replicate, List.getD_cons_succ]; exact ih i

/-- `all` over the identity on Booleans, index-wise. -/
theorem all_id_iff_getD (l : List Bool) :
    l.all (fun received => received) = true ↔
      ∀ i, i < l.length → l.getD i false = true := by
  induction l with
  | nil => simp
  | cons v rest ih =>
    simp only [List.all_cons, Bool.and_eq_true, ih, List.length_cons]
    constructor
    · rintro ⟨hv, hrest⟩ i hi
      cases i with
      | zero => simpa using hv
      | succ i => simpa using hrest i (by omega)
    · intro h
      refine ⟨by simpa using h 0 (by omega), fun i hi => ?_⟩
      simpa using h (i + 1) (by omega)

/-- C5 counterexample: with ten in-flight buffers (the default
`max_concurrent_transfers`), a FIRST_SEGMENT with a fresh sequence number
is not rejected: `process_segment` returns true and an eleventh buffer
is created.  `find_or_create_buffer` has no capacity check. -/
theorem c5_counterexample :
    ¬ (∀ (st : ReassemblerState) (seg : TpSegment),
        st.length = defaultTpConfig.max_concurrent_transfers →
        findBuffer st seg.sequence_number = none →
        seg.message_type = TpMessageType.FIRST_SEGMENT →
        validate_segment defaultTpConfig seg = true →
        (process_segment defaultTpConfig st seg).1 = false ∧
          (process_segment defaultTpConfig st seg).2.1.length =
            defaultTpConfig.max_concurrent_transfers) := by
  intro h
  have h11 := h stC5 (firstSegC5 10) (by decide) (by decide) (by decide) (by decide)
  exact absurd h11.1 (by decide)

/-- Processing a valid FIRST_SEGMENT with a fresh sequence number that
does not immediately complete: a buffer is created and appended to the
map -- whatever its current size -- and the call returns true with no
completed message. -/
theorem process_first_fresh (cfg : TpConfig) (st : ReassemblerState)
    (seg : TpSegment)
    (hv : validate_segment cfg seg = true)
    (hnf : findBuffer st seg.sequence_number = none)
    (hty : seg.message_type = TpMessageType.FIRST_SEGMENT)
    (hp : 16 < seg.payload.length)
    (hincomp : seg.payload.length - 16 < seg.message_length) :
    process_segment cfg st seg =
      (true, updateBuffer (st ++ [(seg.sequence_number,
        mkBuffer seg.sequence_number seg.message_length)])
        seg.sequence_number (bufferAfterFirst seg), none) := by
  have hv2 := hv
  simp only [validate_segment, Bool.and_eq_true, beq_iff_eq,
    decide_eq_true_eq] at hv2
  obtain ⟨⟨hlen, hmax⟩, hbnd⟩ := hv2
  have hfoc : find_or_create_buffer st seg =
      some (mkBuffer seg.sequence_number seg.message_length,
        st ++ [(seg.sequence_number,
          mkBuffer seg.sequence_number seg.message_length)]) := by
    simp [find_or_create_buffer, hnf, hty]
  have hnr : (mkBuffer seg.sequence_number seg.message_length).is_segment_received
      seg.segment_offset seg.segment_length = false := by
    apply Bool.eq_false_iff.mpr
    intro hall
    rw [TpReassemblyBuffer.is_segment_received, List.all_eq_true] at hall
    have h0 := hall 0 (List.mem_range.mpr (by omega))
    simp [mkBuffer] at h0
  have hadd : add_segment_to_buffer (mkBuffer seg.sequence_number
      seg.message_length) seg = (true, bufferAfterFirst seg) := by
    rw [bufferAfterFirst]
    rw [add_segment_to_buffer, hnr]
    have hbnd2 : ¬ (seg.segment_offset + seg.segment_length >
        (mkBuffer seg.sequence_number seg.message_length).total_length) := by
      simp only [mkBuffer]
      omega
    rw [if_neg (by simp only [Bool.false_eq_true, false_iff]; exact fun h => h),
      if_neg hbnd2]
    simp only [hty, mkBuffer, TpReassemblyBuffer.mark_segment_received,
      if_pos hp]
    have hres : (0 : Nat) < seg.message_length := by omega
    simp [hres, List.length_replicate]
  have hcov3len : (setRange (List.replicate seg.message_length false)
      seg.segment_offset (seg.payload.length - 16)).length =
      seg.message_length := by
    rw [setRange_length, List.length_replicate]
  have hcomplete : (bufferAfterFirst seg).is_complete = false := by
    rw [TpReassemblyBuffer.is_complete, bufferAfterFirst]
    apply Bool.eq_false_iff.mpr
    simp only [Bool.false_or]
    intro hall
    rw [all_id_iff_getD] at hall
    have hj := hall (seg.segment_offset + (seg.payload.length - 16))
      (by rw [hcov3len]; omega)
    rw [setRange_getD] at hj
    rw [if_neg (by omega)] at hj
    rw [List.getD_eq_getElem _ _ (by simp; omega)] at hj
    simp at hj
  rw [process_segment, if_neg (fun h => h hv)]
  simp only [hfoc, hadd]
  rw [if_neg (by
    intro hcon
    rw [hcomplete] at hcon
    exact absurd hcon.2 (by simp))]

/-- C5 amended: for ANY state -- however many buffers are in flight --
a valid FIRST_SEGMENT with a fresh sequence number that does not
immediately complete (payload longer than the 16-byte header, stripped
size below the message length) makes `process_segment` return true,
creates a new buffer (one more than before, with no
`max_concurrent_transfers` check anywhere in the reassembler), and
completes nothing. -/
theorem c5_amended_no_capacity_bound (cfg : TpConfig) (st : ReassemblerState)
    (seg : TpSegment)
    (hv : validate_segment cfg seg = true)
    (hnf : findBuffer st seg.sequence_number = none)
    (hty : seg.message_type = TpMessageType.FIRST_SEGMENT)
    (hp : 16 < seg.payload.length)
    (hincomp : seg.payload.length - 16 < seg.message_length) :
    (process_segment cfg st seg).1 = true ∧
      (process_segment cfg st seg).2.1.length = st.length + 1 ∧
      (process_segment cfg st seg).2.2 = none := by
  rw [process_first_fresh cfg st seg hv hnf hty hp hincomp]
  refine ⟨rfl, ?_, rfl⟩
  simp [updateBuffer, List.length_map, List.length_append]

/-- C5 witness: the no-capacity-bound theorem applied to an empty state
and the FIRST segment with sequence number 0. -/
theorem c5_witness :
    validate_segment defaultTpConfig (firstSegC5 0) = true ∧
      findBuffer ([] : ReassemblerState) (firstSegC5 0).sequence_number = none ∧
      (firstSegC5 0).message_type = TpMessageType.FIRST_SEGMENT ∧
      16 < (firstSegC5 0).payload.length ∧
      (firstSegC5 0).payload.length - 16 < (firstSegC5 0).message_length ∧
      ((process_segment defaultTpConfig [] (firstSegC5 0)).1 = true ∧
        (process_segment defaultTpConfig [] (firstSegC5 0)).2.1.length =
          ([] : ReassemblerState).length + 1 ∧
        (process_segment defaultTpConfig [] (firstSegC5 0)).2.2 = none) :=
  ⟨by decide, by decide, by decide, by decide, by decide,
    c5_amended_no_capacity_bound defaultTpConfig [] (firstSegC5 0)
      (by decide) (by decide) (by decide) (by decide) (by decide)⟩

/-- Looking up the only key of a one-buffer state. -/
theorem findBuffer_single (key : Nat) (b : TpReassemblyBuffer) :
    findBuffer [(key, b)] key = some b := by
  simp [findBuffer, List.find?]

/-- Updating the only key of a one-buffer state. -/
theorem updateBuffer_single (key : Nat) (b b' : TpReassemblyBuffer) :
    updateBuffer [(key, b)] key b' = [(key, b')] := by
  simp [updateBuffer]

/-- Erasing the only key of a one-buffer state. -/
theorem eraseBuffer_single (key : Nat) (b : TpReassemblyBuffer) :
    eraseBuffer [(key, b)] key = [] := by
  simp [eraseBuffer]

/-- Reading a byte of the slice `P[off .. off+len]` at relative index `j`
gives the payload byte at `off + j`. -/
theorem slice_getD (P : List Nat) (off len j : Nat) (hj : j < len)
    (hin : off + j < P.length) :
    ((P.drop off).take len).getD j 0 = P.getD (off + j) 0 := by
  rw [List.getD_eq_getElem _ _ (by simp [List.length_take, List.length_drop]; omega)]
  rw [List.getD_eq_getElem _ _ (by simpa using hin)]
  rw [List.getElem_take]
  rw [List.getElem_drop]

/-- Two byte lists of equal length agreeing at every `getD` index are
equal. -/
theorem eq_of_getD (l l' : List Nat) (hlen : l.length = l'.length)
    (h : ∀ i, i < l.length → l.getD i 0 = l'.getD i 0) : l = l' := by
  apply List.ext_getElem hlen
  intro i h1 h2
  have := h i h1
  rwa [List.getD_eq_getElem _ _ (by simpa using h1),
    List.getD_eq_getElem _ _ (by simpa using h2)] at this

/-- Every segment of the spec reference list is a well-formed
CONSECUTIVE or LAST segment of the payload. -/
theorem specRestFrom_mem (cfg : TpConfig) (P : List Nat) (seq : Nat) :
    ∀ (k offset : Nat), offset ≤ P.length →
      ∀ s ∈ specRestFrom cfg P P.length seq k offset,
        SegOK P (seq % 2 ^ 8) s := by
  intro k
  induction k with
  | zero =>
    intro offset hoff s hs
    simp [specRestFrom] at hs
  | succ k ih =>
    intro offset hoff s hs
    rw [specRestFrom_succ] at hs
    by_cases hrem : P.length - offset ≤ cfg.max_segment_size
    · rw [if_pos hrem] at hs
      simp only [List.mem_singleton] at hs
      subst hs
      refine ⟨Or.inr rfl, rfl, rfl,
        (by omega : offset + (P.length - offset) ≤ P.length), ?_, rfl⟩
      show P.length - offset = ((P.drop offset).take (P.length - offset)).length
      simp only [List.length_take, List.length_drop]
      omega
    · rw [if_neg hrem] at hs
      rcases List.mem_cons.mp hs with hs | hs
      · subst hs
        refine ⟨Or.inl rfl, rfl, rfl,
          (by omega : offset + cfg.max_segment_size ≤ P.length), ?_, rfl⟩
        show cfg.max_segment_size = ((P.drop offset).take cfg.max_segment_size).length
        simp only [List.length_take, List.length_drop]
        omega
      · exact ih (offset + cfg.max_segment_size) (by omega) s hs

/-- The spec reference list covers every payload position from its
starting offset on, provided the depth bound suffices. -/
theorem specRestFrom_covers (cfg : TpConfig) (P : List Nat) (N seq : Nat) :
    ∀ (k offset i : Nat), offset ≤ i → i < N →
      N - offset ≤ k * cfg.max_segment_size →
      ∃ s ∈ specRestFrom cfg P N seq k offset,
        s.segment_offset ≤ i ∧ i < s.segment_offset + s.segment_length := by
  intro k
  induction k with
  | zero =>
    intro offset i hoi hiN hk
    omega
  | succ k ih =>
    intro offset i hoi hiN hk
    have hka : (k + 1) * cfg.max_segment_size =
        k * cfg.max_segment_size + cfg.max_segment_size := by ring
    rw [hka] at hk
    rw [specRestFrom_succ]
    by_cases hrem : N - offset ≤ cfg.max_segment_size
    · rw [if_pos hrem]
      exact ⟨_, List.mem_singleton_self _,
        (by omega : offset ≤ i), (by omega : i < offset + (N - offset))⟩
    · rw [if_neg hrem]
      by_cases hhead : i < offset + cfg.max_segment_size
      · exact ⟨_, List.mem_cons_self _ _,
          (by omega : offset ≤ i), (by omega : i < offset + cfg.max_segment_size)⟩
      · obtain ⟨s, hsmem, hsrange⟩ := ih (offset + cfg.max_segment_size) i
          (by omega) hiN (by omega)
        exact ⟨s, List.mem_cons_of_mem _ hsmem, hsrange⟩

/-- Result of `process_segment` on a one-buffer state when the buffer
lookup succeeds and `add_segment_to_buffer` accepts the segment yielding
a not-yet-flagged buffer: the call returns true, and it completes --
erasing the map entry and yielding the buffer's bytes -- exactly when the
new coverage is full. -/
theorem process_result_single (cfg : TpConfig) (key : Nat)
    (b b' : TpReassemblyBuffer) (s : TpSegment)
    (hval : validate_segment cfg s = true)
    (hseq : s.sequence_number = key)
    (hid : b'.message_id = key)
    (hcomp : b'.complete = false)
    (hadd : add_segment_to_buffer b s = (true, b')) :
    process_segment cfg [(key, b)] s =
      (if b'.received_segments.all (fun received => received) = true
       then (true, [], some b'.received_data)
       else (true, [(key, b')], none)) := by
  have hfoc : find_or_create_buffer [(key, b)] s = some (b, [(key, b)]) := by
    rw [find_or_create_buffer, hseq, findBuffer_single]
  rw [process_segment, if_neg (fun h => h hval)]
  by_cases hall : b'.received_segments.all (fun received => received) = true
  · have hic : b'.is_complete = true := by
      rw [TpReassemblyBuffer.is_complete, hcomp, Bool.false_or]
      exact hall
    simp only [hfoc, hadd, hic]
    rw [if_pos (show True ∧ True from ⟨trivial, trivial⟩), if_pos hall,
      hseq, updateBuffer_single]
    simp [TpReassemblyBuffer.get_complete_message, TpReassemblyBuffer.is_complete,
      hid, eraseBuffer_single]
  · have hicf : b'.is_complete = false := by
      rw [TpReassemblyBuffer.is_complete, hcomp, Bool.false_or]
      exact Bool.eq_false_iff.mpr hall
    simp only [hfoc, hadd, hicf]
    rw [if_neg (show ¬ (True ∧ false = true) by
        rintro ⟨-, hc⟩
        exact absurd hc (by simp)),
      if_neg hall, hseq, updateBuffer_single]

/-- Processing one well-formed CONSECUTIVE or LAST segment on a
single-buffer state: the call succeeds, coverage grows by exactly the
segment's range, the buffer invariant is preserved, and the call
completes -- returning the buffer's bytes and emptying the map -- exactly
when the new coverage is full. -/
theorem process_segment_step (cfg : TpConfig) (P : List Nat) (key : Nat)
    (b : TpReassemblyBuffer) (s : TpSegment)
    (hmax : P.length ≤ cfg.max_message_size)
    (hInv : BufferInv P key b) (hs : SegOK P key s) :
    ∃ b' : TpReassemblyBuffer,
      BufferInv P key b' ∧
      (∀ i, i < P.length →
        (b'.received_segments.getD i false = true ↔
          (b.received_segments.getD i false = true ∨
            (s.segment_offset ≤ i ∧ i < s.segment_offset + s.segment_length)))) ∧
      process_segment cfg [(key, b)] s =
        (if b'.received_segments.all (fun received => received) = true
         then (true, [], some b'.received_data)
         else (true, [(key, b')], none)) := by
  obtain ⟨hty, hseq, hmsg, hbound, hlen, hpay⟩ := hs
  obtain ⟨hid, htot, hdlen, hclen, hcomp, hagree⟩ := hInv
  have hval : validate_segment cfg s = true := by
    simp only [validate_segment, Bool.and_eq_true, beq_iff_eq, decide_eq_true_eq]
    exact ⟨⟨hlen, by omega⟩, by omega⟩
  have hfoc : find_or_create_buffer [(key, b)] s = some (b, [(key, b)]) := by
    rw [find_or_create_buffer, hseq, findBuffer_single]
  by_cases hdup : b.is_segment_received s.segment_offset s.segment_length = true
  · have hdupchar : ∀ j, j < s.segment_length →
        b.received_segments.getD (s.segment_offset + j) false = true := by
      intro j hj
      rw [TpReassemblyBuffer.is_segment_received, List.all_eq_true] at hdup
      have hj2 := hdup j (List.mem_range.mpr hj)
      simp only [Bool.and_eq_true, decide_eq_true_eq] at hj2
      exact hj2.2
    refine ⟨b, ⟨hid, htot, hdlen, hclen, hcomp, hagree⟩, ?_, ?_⟩
    · intro i hi
      constructor
      · exact Or.inl
      · rintro (h | ⟨h1, h2⟩)
        · exact h
        · have hx := hdupchar (i - s.segment_offset) (by omega)
          rwa [Nat.add_sub_cancel' h1] at hx
    · have hadd : add_segment_to_buffer b s = (true, b) := by
        rw [add_segment_to_buffer, if_pos hdup]
      exact process_result_single cfg key b b s hval hseq hid hcomp hadd
  · have hcovlen : (writeSegment b s).received_segments.length = P.length := by
      rw [writeSegment]
      simp only [setRange_length]
      exact hclen
    have hdatalen : (writeSegment b s).received_data.length = P.length := by
      rw [writeSegment]
      simp only [overwriteFrom_length]
      exact hdlen
    have hcovget : ∀ i, (writeSegment b s).received_segments.getD i false =
        if s.segment_offset ≤ i ∧ i < s.segment_offset + s.payload.length ∧
            i < P.length then true
        else b.received_segments.getD i false := by
      intro i
      rw [writeSegment]
      simp only [setRange_getD, hclen]
    have hdataget : ∀ i, (writeSegment b s).received_data.getD i 0 =
        if s.segment_offset ≤ i ∧ i < s.segment_offset + s.payload.length ∧
            i < P.length then s.payload.getD (i - s.segment_offset) 0
        else b.received_data.getD i 0 := by
      intro i
      rw [writeSegment]
      simp only [overwriteFrom_getD, hdlen]
    have hadd : add_segment_to_buffer b s = (true, writeSegment b s) := by
      rw [add_segment_to_buffer, if_neg hdup]
      rw [if_neg (show ¬ (s.segment_offset + s.segment_length > b.total_length) by
        omega)]
      rcases hty with h | h <;>
      · simp only [h, TpReassemblyBuffer.mark_segment_received]
        rw [if_neg (show ¬ (b.received_segments.length < b.total_length) by omega)]
        rw [writeSegment]
    refine ⟨writeSegment b s, ⟨hid, htot, hdatalen, hcovlen, hcomp, ?_⟩, ?_, ?_⟩
    · intro i hi hcov
      rw [hcovget i] at hcov
      rw [hdataget i]
      by_cases hin : s.segment_offset ≤ i ∧
          i < s.segment_offset + s.payload.length ∧ i < P.length
      · rw [if_pos hin]
        rw [hpay]
        rw [slice_getD P s.segment_offset s.segment_length
          (i - s.segment_offset) (by omega) (by omega)]
        rw [Nat.add_sub_cancel' hin.1]
      · rw [if_neg hin]
        rw [if_neg hin] at hcov
        exact hagree i hi hcov
    · intro i hi
      rw [hcovget i]
      by_cases hin : s.segment_offset ≤ i ∧
          i < s.segment_offset + s.payload.length ∧ i < P.length
      · rw [if_pos hin]
        exact iff_of_true rfl (Or.inr ⟨hin.1, by omega⟩)
      · rw [if_neg hin]
        constructor
        · exact Or.inl
        · rintro (h | ⟨h1, h2⟩)
          · exact h
          · exact absurd ⟨h1, by omega, hi⟩ hin
    · exact process_result_single cfg key b (writeSegment b s) s hval hseq hid
        hcomp hadd

/-- Feeding any list of well-formed CONSECUTIVE/LAST segments whose
ranges, together with the bytes already covered, span the whole payload
to a single not-yet-complete buffer ends with a completed reassembly
yielding exactly the payload bytes.  The hypotheses are stable under
permutation of the list, so the feeding order is irrelevant. -/
theorem processList_completes (cfg : TpConfig) (P : List Nat) (key : Nat)
    (hmax : P.length ≤ cfg.max_message_size) :
    ∀ (L : List TpSegment) (b : TpReassemblyBuffer),
      BufferInv P key b →
      (∀ s ∈ L, SegOK P key s) →
      (∀ i, i < P.length → b.received_segments.getD i false = true ∨
        ∃ s ∈ L, s.segment_offset ≤ i ∧ i < s.segment_offset + s.segment_length) →
      (∃ j, j < P.length ∧ b.received_segments.getD j false = false) →
      processList cfg [(key, b)] L = some P := by
  intro L
  induction L with
  | nil =>
    rintro b hInv hsegs hcov ⟨j, hj, hfalse⟩
    rcases hcov j hj with h | ⟨s, hs, -⟩
    · rw [h] at hfalse
      exact absurd hfalse (by simp)
    · exact absurd hs (List.not_mem_nil s)
  | cons s rest ih =>
    rintro b hInv hsegs hcov ⟨j, hj, hfalse⟩
    obtain ⟨b', hInv', hiff, hproc⟩ := process_segment_step cfg P key b s hmax hInv
      (hsegs s (List.mem_cons_self s rest))
    by_cases hall : b'.received_segments.all (fun received => received) = true
    · rw [if_pos hall] at hproc
      simp only [processList, hproc]
      have hdata : b'.received_data = P := by
        obtain ⟨-, -, hdlen', hclen', -, hagree'⟩ := hInv'
        apply eq_of_getD _ _ (by rw [hdlen'])
        intro i hi
        have hi2 : i < P.length := by rwa [hdlen'] at hi
        exact hagree' i hi2
          ((all_id_iff_getD _).mp hall i (by rw [hclen']; exact hi2))
      rw [hdata]
    · rw [if_neg hall] at hproc
      simp only [processList, hproc]
      have hclen' : b'.received_segments.length = P.length := hInv'.2.2.2.1
      apply ih b' hInv' (fun s2 hs2 => hsegs s2 (List.mem_cons_of_mem s hs2))
      · intro i hi
        rcases hcov i hi with h | ⟨s2, hs2, hr⟩
        · exact Or.inl ((hiff i hi).mpr (Or.inl h))
        · rcases List.mem_cons.mp hs2 with heq | hmem
          · subst heq
            exact Or.inl ((hiff i hi).mpr (Or.inr hr))
          · exact Or.inr ⟨s2, hmem, hr⟩
      · by_contra hnone
        push_neg at hnone
        apply hall
        rw [all_id_iff_getD]
        intro i hi
        have hne := hnone i (by rwa [hclen'] at hi)
        cases hx : b'.received_segments.getD i false
        · exact absurd hx hne
        · rfl

/-- Reading a byte of a `take` prefix gives the original byte. -/
theorem take_getD (P : List Nat) (c i : Nat) (hi : i < c) (hP : i < P.length) :
    (P.take c).getD i 0 = P.getD i 0 := by
  have h := slice_getD P 0 c i hi (by omega)
  rwa [List.drop_zero, Nat.zero_add] at h

/-- C3 amended: for every message the segmenter splits (with
`max_segment_size ≥ 17` and payload at most 65535 bytes), feeding the
FIRST segment followed by the remaining segments in ANY order to
`TpReassembler::process_segment` ends with a completed reassembly whose
returned bytes equal exactly `m.payload`.  (Per the counterexample, a
permutation in which a CONSECUTIVE or LAST segment precedes the FIRST is
dropped with no buffer to receive it, so only FIRST-first orders
complete.) -/
theorem c3_amended_first_then_any_order (cfg : TpConfig) (m : Message)
    (seq : Nat) (first : TpSegment) (rest L : List TpSegment)
    (h17 : 17 ≤ cfg.max_segment_size)
    (hsplit : cfg.max_segment_size < m.payload.length)
    (hN : m.payload.length ≤ 65535)
    (hmm : m.payload.length ≤ cfg.max_message_size)
    (hseg : segment_message cfg m seq = some (TpResult.SUCCESS, first :: rest))
    (hperm : L.Perm rest) :
    processList cfg [] (first :: L) = some m.payload := by
  have hsm := segment_message_multi_layout cfg m seq (by omega) hsplit hN hmm
  rw [hseg] at hsm
  have hlist := congrArg Prod.snd (Option.some.inj hsm)
  simp only at hlist
  injection hlist with hfirst hrest
  subst hrest
  have hfty : first.message_type = TpMessageType.FIRST_SEGMENT := by rw [hfirst]
  have hfseq : first.sequence_number = seq % 2 ^ 8 := by rw [hfirst]
  have hfoff : first.segment_offset = 0 := by rw [hfirst]
  have hflen : first.segment_length = cfg.max_segment_size := by rw [hfirst]
  have hfml : first.message_length = m.payload.length := by rw [hfirst]
  have hfpay : first.payload = m.serialize.take 16 ++
      m.payload.take (cfg.max_segment_size - 16) := by rw [hfirst]
  have hslen := m.serialize_length
  have h1 : (m.serialize.take 16).length = 16 := by
    rw [List.length_take, hslen]
    omega
  have h2 : (m.payload.take (cfg.max_segment_size - 16)).length =
      cfg.max_segment_size - 16 := by
    rw [List.length_take]
    omega
  have hplen : first.payload.length = cfg.max_segment_size := by
    rw [hfpay, List.length_append, h1, h2]
    omega
  have hv1 : validate_segment cfg first = true := by
    simp only [validate_segment, Bool.and_eq_true, beq_iff_eq, decide_eq_true_eq]
    refine ⟨⟨?_, ?_⟩, ?_⟩
    · rw [hflen, hplen]
    · rw [hfml]
      omega
    · rw [hfoff, hflen, hfml]
      omega
  have hdrop : first.payload.drop 16 =
      m.payload.take (cfg.max_segment_size - 16) := by
    rw [hfpay, List.drop_left' h1]
  have hstep := process_first_fresh cfg [] first hv1 (by simp [findBuffer])
    hfty (by rw [hplen]; omega) (by rw [hplen, hfml]; omega)
  have hbuf : bufferAfterFirst first =
      { message_id := seq % 2 ^ 8
        total_length := m.payload.length
        received_data := overwriteFrom (List.replicate m.payload.length 0) 0
          (m.payload.take (cfg.max_segment_size - 16))
        received_segments := setRange (List.replicate m.payload.length false) 0
          (cfg.max_segment_size - 16)
        last_sequence_number := seq % 2 ^ 8
        complete := false } := by
    rw [bufferAfterFirst, hfseq, hfml, hfoff, hdrop, hplen]
  have hstate : updateBuffer ([] ++ [(first.sequence_number,
      mkBuffer first.sequence_number first.message_length)])
      first.sequence_number (bufferAfterFirst first) =
      [(seq % 2 ^ 8, bufferAfterFirst first)] := by
    rw [List.nil_append, updateBuffer_single, hfseq]
  rw [hstate] at hstep
  simp only [processList, hstep]
  have hmul : m.payload.length - (cfg.max_segment_size - 16) ≤
      m.payload.length * cfg.max_segment_size := by
    have hx : m.payload.length * 1 ≤ m.payload.length * cfg.max_segment_size :=
      Nat.mul_le_mul_left _ (by omega)
    omega
  apply processList_completes cfg m.payload (seq % 2 ^ 8) hmm L
    (bufferAfterFirst first)
  · rw [hbuf]
    refine ⟨rfl, rfl, ?_, ?_, rfl, ?_⟩
    · show (overwriteFrom (List.replicate m.payload.length 0) 0
        (m.payload.take (cfg.max_segment_size - 16))).length = m.payload.length
      rw [overwriteFrom_length, List.length_replicate]
    · show (setRange (List.replicate m.payload.length false) 0
        (cfg.max_segment_size - 16)).length = m.payload.length
      rw [setRange_length, List.length_replicate]
    · intro i hi hcv
      show (overwriteFrom (List.replicate m.payload.length 0) 0
        (m.payload.take (cfg.max_segment_size - 16))).getD i 0 = m.payload.getD i 0
      rw [setRange_getD, List.length_replicate] at hcv
      by_cases hin : i < cfg.max_segment_size - 16
      · rw [overwriteFrom_getD, List.length_replicate, h2,
          if_pos ⟨by omega, by omega, hi⟩, Nat.sub_zero]
        exact take_getD m.payload (cfg.max_segment_size - 16) i hin hi
      · rw [if_neg (by omega)] at hcv
        rw [replicate_getD] at hcv
        exact absurd hcv (by simp)
  · intro s hs
    exact specRestFrom_mem cfg m.payload seq m.payload.length
      (cfg.max_segment_size - 16) (by omega) s (hperm.mem_iff.mp hs)
  · intro i hi
    by_cases hlt : i < cfg.max_segment_size - 16
    · left
      rw [hbuf]
      show (setRange (List.replicate m.payload.length false) 0
        (cfg.max_segment_size - 16)).getD i false = true
      rw [setRange_getD, List.length_replicate, if_pos ⟨by omega, by omega, hi⟩]
    · right
      obtain ⟨s, hsmem, hr⟩ := specRestFrom_covers cfg m.payload
        m.payload.length seq m.payload.length (cfg.max_segment_size - 16) i
        (by omega) hi hmul
      exact ⟨s, hperm.mem_iff.mpr hsmem, hr⟩
  · refine ⟨cfg.max_segment_size - 16, by omega, ?_⟩
    rw [hbuf]
    show (setRange (List.replicate m.payload.length false) 0
      (cfg.max_segment_size - 16)).getD (cfg.max_segment_size - 16) false = false
    rw [setRange_getD, List.length_replicate, if_neg (by omega), replicate_getD]

/-- C3 counterexample: the claim that EVERY permutation of the
segmenter's output reassembles is false.  With `cfg20` (20-byte
segments) and the 30-byte-payload message `msgPay30`, feeding the
permutation [LAST, FIRST, CONSECUTIVE] drops the LAST segment (a
non-FIRST segment with no buffer yet is discarded by
`find_or_create_buffer`), so the run ends incomplete with no payload
returned — contradicting the spec's S4 out-of-order scenario. -/
theorem c3_counterexample :
    ¬ (∀ (cfg : TpConfig) (m : Message) (seq : Nat)
        (segs L : List TpSegment),
        segment_message cfg m seq = some (TpResult.SUCCESS, segs) →
        L.Perm segs →
        processList cfg [] L = some m.payload) := by
  intro h
  have h2 := h cfg20 msgPay30 5 segsC3 permC3 (by decide) (by decide)
  have h3 : processList cfg20 [] permC3 = none := by decide
  rw [h3] at h2
  exact Option.noConfusion h2

/-- C3 witness: the amended theorem applied to `msgPay30` under `cfg20`
with the tail segments swapped (FIRST, then [LAST, CONSECUTIVE]). -/
theorem c3_witness :
    segment_message cfg20 msgPay30 5 = some (TpResult.SUCCESS,
      segsC3.getD 0 dummySeg ::
        [segsC3.getD 1 dummySeg, segsC3.getD 2 dummySeg]) ∧
      List.Perm [segsC3.getD 2 dummySeg, segsC3.getD 1 dummySeg]
        [segsC3.getD 1 dummySeg, segsC3.getD 2 dummySeg] ∧
      processList cfg20 [] (segsC3.getD 0 dummySeg ::
        [segsC3.getD 2 dummySeg, segsC3.getD 1 dummySeg]) =
        some msgPay30.payload :=
  ⟨by decide, by decide,
    c3_amended_first_then_any_order cfg20 msgPay30 5
      (segsC3.getD 0 dummySeg)
      [segsC3.getD 1 dummySeg, segsC3.getD 2 dummySeg]
      [segsC3.getD 2 dummySeg, segsC3.getD 1 dummySeg]
      (by decide) (by decide) (by decide) (by decide)
      (by decide) (by decide)⟩

end Someip
